import Mathlib

/-!
# SEP `src/util.c`

A shallow embedding of the runtime type dispatch (`get_converter`,
`get_array_converter`, `get_array_writer`, `get_array_subtractor`), of the array
conversion / write / subtract loops, of the status messages and the error-detail
slot, and of the array median (`fqcmp`, `fqmedian`) of `util.c`, followed by the
properties proved about them.

Conventions of the embedding.

* A C `int` is an integer (`ℤ`); where the C semantics needs the 32-bit range the
  range is explicit (`isInt`).
* A function pointer is a value of an enumeration with one constructor per
  function of `util.c` whose address is taken; `NULL` is `none`.
* Out-parameters (`*f`, `*size`) are returned next to the status.
* A buffer reached through a pointer is a map from the element index to the
  element (`ℕ → α`); a call returns the buffers it was given, updated.
* The thread-local `_errdetail_buffer` is the field of an explicit state that is
  passed in and out of every function the properties speak about.
* A finite `float` / `double` value is the rational number it denotes; arithmetic
  rounds to nearest, ties to even, in the precision of the C type. A result that
  exceeds the largest finite value of its type is an infinity (`FVal`); NaN is
  outside the embedding.
* Behaviour the C standard leaves undefined (a cast to `int` whose integral part
  is out of range, signed overflow) is the result `none`.
-/

namespace Sep

/-! ## Constants from the headers -/

/-- The numeric constants `util.c` takes from `sep.h` and `sepcore.h`: the four
data type codes and the status codes. The headers are not among the sources, so
their values are a parameter of the embedding. -/
structure Consts where
  SEP_TBYTE : ℤ
  SEP_TINT : ℤ
  SEP_TFLOAT : ℤ
  SEP_TDOUBLE : ℤ
  RETURN_OK : ℤ
  MEMORY_ALLOC_ERROR : ℤ
  PIXSTACK_FULL : ℤ
  ILLEGAL_DTYPE : ℤ
  ILLEGAL_SUBPIX : ℤ
  NON_ELLIPSE_PARAMS : ℤ
  ILLEGAL_APER_PARAMS : ℤ
  DEBLEND_OVERFLOW : ℤ
  LINE_NOT_IN_BUF : ℤ
  RELTHRESH_NO_NOISE : ℤ
  UNKNOWN_NOISE_TYPE : ℤ
  deriving DecidableEq, Repr

/-- The four data type codes are pairwise different (the type tags form a closed
set of four members). -/
def Consts.tagsDistinct (K : Consts) : Prop :=
  [K.SEP_TBYTE, K.SEP_TINT, K.SEP_TFLOAT, K.SEP_TDOUBLE].Nodup

instance (K : Consts) : Decidable K.tagsDistinct := by
  unfold Consts.tagsDistinct; infer_instance

/-- The tag is one of the four data type codes. -/
def Consts.isTag (K : Consts) (dtype : ℤ) : Prop :=
  dtype = K.SEP_TBYTE ∨ dtype = K.SEP_TINT ∨ dtype = K.SEP_TFLOAT ∨ dtype = K.SEP_TDOUBLE

instance (K : Consts) (dtype : ℤ) : Decidable (K.isTag dtype) := by
  unfold Consts.isTag; infer_instance

/-- The values the constants have in the SEP headers (`sep.h`: 11, 31, 42, 82;
`sepcore.h`: 0 to 10). -/
def sepConsts : Consts where
  SEP_TBYTE := 11
  SEP_TINT := 31
  SEP_TFLOAT := 42
  SEP_TDOUBLE := 82
  RETURN_OK := 0
  MEMORY_ALLOC_ERROR := 1
  PIXSTACK_FULL := 2
  ILLEGAL_DTYPE := 3
  ILLEGAL_SUBPIX := 4
  NON_ELLIPSE_PARAMS := 5
  ILLEGAL_APER_PARAMS := 6
  DEBLEND_OVERFLOW := 7
  LINE_NOT_IN_BUF := 8
  RELTHRESH_NO_NOISE := 9
  UNKNOWN_NOISE_TYPE := 10

/-- The constant `#define DETAILSIZE 512` -/
def DETAILSIZE : ℕ := 512

/-! ## Platform: integer range and object sizes -/

/-- The value `INT_MIN` of a 32-bit `int`. -/
def INT_MIN : ℤ := -2147483648

/-- The value `INT_MAX` of a 32-bit `int`. -/
def INT_MAX : ℤ := 2147483647

/-- The integer is a value of the C type `int`. -/
def isInt (x : ℤ) : Prop := INT_MIN ≤ x ∧ x ≤ INT_MAX

instance (x : ℤ) : Decidable (isInt x) := by
  unfold isInt; infer_instance

/-- The size `sizeof(float)` -/
def sizeof_float : ℤ := 4

/-- The size `sizeof(int)` -/
def sizeof_int : ℤ := 4

/-- The size `sizeof(double)` -/
def sizeof_double : ℤ := 8

/-- Modelled from the spec: `BYTE` is declared in `sepcore.h`, which is not among
the sources; the element size of a BYTE buffer is one byte (an unsigned 8-bit
value), so this is `sizeof(BYTE)`. -/
def sizeof_BYTE : ℤ := 1

/-! ## The error-detail slot -/

/-- The global state of `util.c`: the contents of `_errdetail_buffer`, as the
NUL-terminated string it holds. -/
structure SepState where
  _errdetail_buffer : String
  deriving DecidableEq, Repr

/-- The result of a bounds-checked string function: the destination string and
whether the call was a runtime-constraint violation. -/
structure StrResult where
  dest : String
  violation : Bool
  deriving DecidableEq, Repr

/-- The call `strcpy_s(dest, destsz, src)` of the C library (not part of `util.c`): the
source is copied when it fits with its terminator; otherwise the call is a
runtime-constraint violation (`violation`): the library sets `dest[0] = 0` and
calls its constraint handler, so `dest` is then the destination as the caller
finds it if the handler returns (see `put_errdetail_under` for a handler that
does not). -/
def strcpy_s (destsz : ℕ) (src : String) : StrResult :=
  if src.length < destsz then ⟨src, false⟩ else ⟨"", true⟩

/-- The call `sprintf_s(dest, destsz, fmt, ...)` of the C library, applied to the text the
format expands to: same size rule as `strcpy_s`. -/
def sprintf_s (destsz : ℕ) (formatted : String) : StrResult :=
  if formatted.length < destsz then ⟨formatted, false⟩ else ⟨"", true⟩

/-- The conversion `%d` of an `int`. -/
def fmt_d (x : ℤ) : String := toString x

/-- The function `void sep_get_errdetail(char *errtext)`: copies the slot to the caller and
clears the slot. Returns the caller's text and the new state. -/
def sep_get_errdetail (s : SepState) : String × SepState :=
  let errtext := (strcpy_s DETAILSIZE s._errdetail_buffer).dest
  (errtext, { _errdetail_buffer := "" })

/-- The function `void put_errdetail(const char *errtext)`: the state after the
call returns. -/
def put_errdetail (errtext : String) (_s : SepState) : SepState :=
  { _errdetail_buffer := (strcpy_s DETAILSIZE errtext).dest }

/-- What the constraint handler of the C library does when a bounds-checked
function reports a runtime-constraint violation. The library is not part of the
sources and the handler is its choice: it can return to the caller or end the
program. -/
inductive ConstraintHandler where
  | returns
  | terminates
  deriving DecidableEq, Repr

/-- The call `put_errdetail(errtext)` with the constraint handler of the library
explicit: `none` when the copy violates its runtime constraint and the handler
ends the program; in every other case the state `put_errdetail` gives. -/
def put_errdetail_under (h : ConstraintHandler) (errtext : String) (s : SepState) :
    Option SepState :=
  if (strcpy_s DETAILSIZE errtext).violation then
    match h with
    | ConstraintHandler.returns => some (put_errdetail errtext s)
    | ConstraintHandler.terminates => none
  else some (put_errdetail errtext s)

/-! ## Function pointers and resolver results -/

/-- Values of the type `converter`: the addresses of the scalar converters. -/
inductive converter where
  | convert_dbl
  | convert_flt
  | convert_int
  | convert_byt
  deriving DecidableEq, Repr

/-- Values of the type `array_converter`: the addresses of the array converters. -/
inductive array_converter where
  | convert_array_flt
  | convert_array_dbl
  | convert_array_int
  | convert_array_byt
  deriving DecidableEq, Repr

/-- Values of the type `array_writer`: the addresses of the array writers and of
the array subtractors. -/
inductive array_writer where
  | write_array_dbl
  | write_array_int
  | subtract_array_dbl
  | subtract_array_flt
  | subtract_array_int
  deriving DecidableEq, Repr

/-- What a resolver hands back: the returned status and the out-parameters `*f`
(`none` is `NULL`) and `*size`. -/
structure Resolved (F : Type) where
  status : ℤ
  f : Option F
  size : ℤ
  deriving DecidableEq, Repr

/-! ## The resolvers -/

/-- The function `int get_converter(int dtype, converter *f, int *size)` -/
def get_converter (K : Consts) (dtype : ℤ) (s : SepState) : Resolved converter × SepState :=
  if dtype = K.SEP_TFLOAT then
    (⟨K.RETURN_OK, some converter.convert_flt, sizeof_float⟩, s)
  else if dtype = K.SEP_TINT then
    (⟨K.RETURN_OK, some converter.convert_int, sizeof_int⟩, s)
  else if dtype = K.SEP_TDOUBLE then
    (⟨K.RETURN_OK, some converter.convert_dbl, sizeof_double⟩, s)
  else if dtype = K.SEP_TBYTE then
    (⟨K.RETURN_OK, some converter.convert_byt, sizeof_BYTE⟩, s)
  else
    (⟨K.ILLEGAL_DTYPE, none, 0⟩, s)

/-- The function `int get_array_converter(int dtype, array_converter *f, int *size)` -/
def get_array_converter (K : Consts) (dtype : ℤ) (s : SepState) :
    Resolved array_converter × SepState :=
  if dtype = K.SEP_TFLOAT then
    (⟨K.RETURN_OK, some array_converter.convert_array_flt, sizeof_float⟩, s)
  else if dtype = K.SEP_TBYTE then
    (⟨K.RETURN_OK, some array_converter.convert_array_byt, sizeof_BYTE⟩, s)
  else if dtype = K.SEP_TINT then
    (⟨K.RETURN_OK, some array_converter.convert_array_int, sizeof_int⟩, s)
  else if dtype = K.SEP_TDOUBLE then
    (⟨K.RETURN_OK, some array_converter.convert_array_dbl, sizeof_double⟩, s)
  else
    (⟨K.ILLEGAL_DTYPE, none, 0⟩, s)

/-- The function `int get_array_writer(int dtype, array_writer *f, int *size)` -/
def get_array_writer (K : Consts) (dtype : ℤ) (s : SepState) :
    Resolved array_writer × SepState :=
  if dtype = K.SEP_TINT then
    (⟨K.RETURN_OK, some array_writer.write_array_int, sizeof_int⟩, s)
  else if dtype = K.SEP_TDOUBLE then
    (⟨K.RETURN_OK, some array_writer.write_array_dbl, sizeof_double⟩, s)
  else
    (⟨K.ILLEGAL_DTYPE, none, 0⟩, s)

/-- The function `int get_array_subtractor(int dtype, array_writer *f, int *size)`; the local
`char errtext[80]` receives the formatted text before it is put into the slot. -/
def get_array_subtractor (K : Consts) (dtype : ℤ) (s : SepState) :
    Resolved array_writer × SepState :=
  if dtype = K.SEP_TFLOAT then
    (⟨K.RETURN_OK, some array_writer.subtract_array_flt, sizeof_float⟩, s)
  else if dtype = K.SEP_TINT then
    (⟨K.RETURN_OK, some array_writer.subtract_array_int, sizeof_int⟩, s)
  else if dtype = K.SEP_TDOUBLE then
    (⟨K.RETURN_OK, some array_writer.subtract_array_dbl, sizeof_double⟩, s)
  else
    let errtext := (sprintf_s 80 ("in get_array_subtractor(): " ++ fmt_d dtype)).dest
    (⟨K.ILLEGAL_DTYPE, none, 0⟩, put_errdetail errtext s)

/-! ## Floating-point values and conversions

A finite `float` or `double` is the rational number it denotes. `roundTo p emin`
rounds a rational to the nearest value `m * 2 ^ e` with `|m| < 2 ^ p` and
`emin ≤ e`, ties to even: `p = 24`, `emin = -149` is IEEE-754 binary32 (`float`),
`p = 53`, `emin = -1074` is binary64 (`double`). As in IEEE-754, a result is
rounded as if the exponent had no upper bound (`roundTo`, `to_float`,
`to_double`) and overflows when the rounded value exceeds the largest finite
value (`FLT_MAX`, `DBL_MAX`): the operations that can overflow return an `FVal`,
a finite value or an infinity. NaN is outside the embedding. -/

/-- Round to the nearest integer, ties to the even one. -/
def roundHalfEven (x : ℚ) : ℤ :=
  if x - ⌊x⌋ < 1 / 2 then ⌊x⌋
  else if 1 / 2 < x - ⌊x⌋ then ⌊x⌋ + 1
  else if ⌊x⌋ % 2 = 0 then ⌊x⌋ else ⌊x⌋ + 1

/-- The exponent of the unit in the last place of `x` in the format with `p`
significand bits and least exponent `emin`. -/
def ulpExp (p : ℕ) (emin : ℤ) (x : ℚ) : ℤ :=
  max (Int.log 2 |x| - ((p : ℤ) - 1)) emin

/-- Round to nearest, ties to even, in the format with `p` significand bits and
least exponent `emin`, as if the exponent had no upper bound. -/
def roundTo (p : ℕ) (emin : ℤ) (x : ℚ) : ℚ :=
  roundHalfEven (x / 2 ^ ulpExp p emin x) * 2 ^ ulpExp p emin x

/-- The value `FLT_MAX`, the largest finite `float`. -/
def FLT_MAX : ℚ := (2 ^ 24 - 1) * 2 ^ 104

/-- The value `DBL_MAX`, the largest finite `double`. -/
def DBL_MAX : ℚ := (2 ^ 53 - 1) * 2 ^ 971

/-- Rounding to the precision of `float`, before the test for overflow: the
conversion to `float` of a value whose rounding does not exceed `FLT_MAX`. -/
def to_float (x : ℚ) : ℚ := roundTo 24 (-149) x

/-- Rounding to the precision of `double`, before the test for overflow: the
conversion to `double` of a value whose rounding does not exceed `DBL_MAX`. -/
def to_double (x : ℚ) : ℚ := roundTo 53 (-1074) x

/-- The rational is a finite value of the type `float`. -/
def isFloat (x : ℚ) : Prop := to_float x = x ∧ |x| ≤ FLT_MAX

instance (x : ℚ) : Decidable (isFloat x) := by
  unfold isFloat; infer_instance

/-- The rational is a finite value of the type `double`. -/
def isDouble (x : ℚ) : Prop := to_double x = x ∧ |x| ≤ DBL_MAX

instance (x : ℚ) : Decidable (isDouble x) := by
  unfold isDouble; infer_instance

/-- A value of a floating type that is not a NaN: a finite value, given by the
rational it denotes, or an infinity. -/
inductive FVal where
  | fin (x : ℚ)
  | pinf
  | ninf
  deriving DecidableEq

/-- The `float` that an operation with the exact result `x` delivers: `x` rounded
to the precision of `float`, or an infinity when that exceeds `FLT_MAX`. -/
def float_result (x : ℚ) : FVal :=
  if FLT_MAX < to_float x then FVal.pinf
  else if to_float x < -FLT_MAX then FVal.ninf
  else FVal.fin (to_float x)

/-- The `double` that an operation with the exact result `x` delivers: `x` rounded
to the precision of `double`, or an infinity when that exceeds `DBL_MAX`. -/
def double_result (x : ℚ) : FVal :=
  if DBL_MAX < to_double x then FVal.pinf
  else if to_double x < -DBL_MAX then FVal.ninf
  else FVal.fin (to_double x)

/-- The conversion of a `float` to `double`. -/
def float_to_double : FVal → FVal
  | FVal.fin x => FVal.fin (to_double x)
  | FVal.pinf => FVal.pinf
  | FVal.ninf => FVal.ninf

/-- The conversion of a `double` to `float`. -/
def double_to_float : FVal → FVal
  | FVal.fin x => float_result x
  | FVal.pinf => FVal.pinf
  | FVal.ninf => FVal.ninf

/-- Modelled from the spec: `PIXTYPE` is declared in `sepcore.h`, which is not
among the sources; the canonical pixel value is a single-precision float (the
array writers of `util.c` take the canonical array as `const float *`), so the
conversion to `PIXTYPE` is the conversion to `float`. The canonical buffers hold
finite values: this is the conversion of a value whose rounding does not exceed
`FLT_MAX` (every `BYTE`, `int` and `float`, and the `double`s in the range of
`float`). -/
def to_PIXTYPE (x : ℚ) : ℚ := to_float x

/-- The sum `a + b` of two `double` operands. -/
def double_add (a b : ℚ) : ℚ := to_double (a + b)

/-- The difference `a - b` of two `double` operands, `b` finite. -/
def double_sub : FVal → ℚ → FVal
  | FVal.fin a, b => double_result (a - b)
  | FVal.pinf, _ => FVal.pinf
  | FVal.ninf, _ => FVal.ninf

/-- The difference `a - b` of two `float` operands, `b` finite. -/
def float_sub : FVal → ℚ → FVal
  | FVal.fin a, b => float_result (a - b)
  | FVal.pinf, _ => FVal.pinf
  | FVal.ninf, _ => FVal.ninf

/-- The integral part of a real number: rounding toward zero. -/
def truncate (x : ℚ) : ℤ := if 0 ≤ x then ⌊x⌋ else ⌈x⌉

/-- The cast `(int)d` of a `double`: the integral part; undefined (`none`) when
the integral part is not a value of `int`. -/
def cast_int (d : ℚ) : Option ℤ :=
  if isInt (truncate d) then some (truncate d) else none

/-- The difference `a - b` of two `int` operands; undefined (`none`) on overflow. -/
def int_sub (a b : ℤ) : Option ℤ :=
  if isInt (a - b) then some (a - b) else none

/-! ## Buffers and loops -/

/-- The two buffers of an array function: the one it reads through `ptr` and the
one it writes through `target`. -/
structure Bufs (α β : Type) where
  source : ℕ → α
  target : ℕ → β

/-- The loop `for (i=0; i<n; i++) body` on a state. -/
def for_loop {σ : Type} (n : ℤ) (body : ℕ → σ → σ) (s : σ) : σ :=
  (List.range n.toNat).foldl (fun st i => body i st) s

/-- The loop `for (i=0; i<n; i++) body` where an iteration can be undefined. -/
def for_loop_ub {σ : Type} (n : ℤ) (body : ℕ → σ → Option σ) (s : σ) : Option σ :=
  (List.range n.toNat).foldlM (fun st i => body i st) s

/-- The buffer whose first elements are those of the list and whose other
elements are `d`. -/
def buf_of_list {α : Type} (l : List α) (d : α) : ℕ → α := fun i => l.getD i d

/-! ## Scalar converters -/

/-- The function `PIXTYPE convert_dbl(const void *ptr)`, on the `double` the pointer refers
to. The value returned is finite: for a `double` whose rounding exceeds `FLT_MAX`
the conversion is undefined in ISO C (an infinity under IEC 60559) and is not
the number given here; `double_to_float` is the conversion with the infinities. -/
def convert_dbl (v : ℚ) : ℚ := to_PIXTYPE v

/-- The function `PIXTYPE convert_flt(const void *ptr)`, on the `float` the pointer refers to:
the value is returned as it is. -/
def convert_flt (v : ℚ) : ℚ := v

/-- The function `PIXTYPE convert_int(const void *ptr)`, on the `int` the pointer refers to. -/
def convert_int (v : ℤ) : ℚ := to_PIXTYPE (v : ℚ)

/-- The function `PIXTYPE convert_byt(const void *ptr)`, on the `BYTE` the pointer refers to. -/
def convert_byt (v : ℕ) : ℚ := to_PIXTYPE (v : ℚ)

/-! ## Array converters -/

/-- The function `void convert_array_flt(const void *ptr, int n, PIXTYPE *target)` -/
def convert_array_flt (ptr : ℕ → ℚ) (n : ℤ) (target : ℕ → ℚ) : Bufs ℚ ℚ :=
  for_loop n
    (fun i m => { m with target := Function.update m.target i (m.source i) })
    ⟨ptr, target⟩

/-- The function `void convert_array_dbl(const void *ptr, int n, PIXTYPE *target)`, on
`double`s in the range of `float` (see `convert_dbl`). -/
def convert_array_dbl (ptr : ℕ → ℚ) (n : ℤ) (target : ℕ → ℚ) : Bufs ℚ ℚ :=
  for_loop n
    (fun i m => { m with target := Function.update m.target i (to_PIXTYPE (m.source i)) })
    ⟨ptr, target⟩

/-- The function `void convert_array_int(const void *ptr, int n, PIXTYPE *target)` -/
def convert_array_int (ptr : ℕ → ℤ) (n : ℤ) (target : ℕ → ℚ) : Bufs ℤ ℚ :=
  for_loop n
    (fun i m => { m with target := Function.update m.target i (to_PIXTYPE (m.source i : ℚ)) })
    ⟨ptr, target⟩

/-- The function `void convert_array_byt(const void *ptr, int n, PIXTYPE *target)` -/
def convert_array_byt (ptr : ℕ → ℕ) (n : ℤ) (target : ℕ → ℚ) : Bufs ℕ ℚ :=
  for_loop n
    (fun i m => { m with target := Function.update m.target i (to_PIXTYPE (m.source i : ℚ)) })
    ⟨ptr, target⟩

/-! ## Array writers -/

/-- The function `void write_array_dbl(const float *ptr, int n, void *target)` -/
def write_array_dbl (ptr : ℕ → ℚ) (n : ℤ) (target : ℕ → ℚ) : Bufs ℚ ℚ :=
  for_loop n
    (fun i m => { m with target := Function.update m.target i (to_double (m.source i)) })
    ⟨ptr, target⟩

/-- The function `void write_array_int(const float *ptr, int n, void *target)`: the element is
widened to `double`, `0.5` is added in `double`, the sum is cast to `int`. -/
def write_array_int (ptr : ℕ → ℚ) (n : ℤ) (target : ℕ → ℤ) : Option (Bufs ℚ ℤ) :=
  for_loop_ub n
    (fun i m => do
      let v ← cast_int (double_add (to_double (m.source i)) (1 / 2))
      pure { m with target := Function.update m.target i v })
    ⟨ptr, target⟩

/-! ## Array subtractors -/

/-- The function `void subtract_array_dbl(const float *ptr, int n, void *target)`;
the elements of the raw buffer are finite or infinite. -/
def subtract_array_dbl (ptr : ℕ → ℚ) (n : ℤ) (target : ℕ → FVal) : Bufs ℚ FVal :=
  for_loop n
    (fun i m =>
      { m with
        target := Function.update m.target i
          (double_sub (m.target i) (to_double (m.source i))) })
    ⟨ptr, target⟩

/-- The function `void subtract_array_flt(const float *ptr, int n, void *target)`;
the elements of the raw buffer are finite or infinite. -/
def subtract_array_flt (ptr : ℕ → ℚ) (n : ℤ) (target : ℕ → FVal) : Bufs ℚ FVal :=
  for_loop n
    (fun i m =>
      { m with
        target := Function.update m.target i (float_sub (m.target i) (m.source i)) })
    ⟨ptr, target⟩

/-- The function `void subtract_array_int(const float *ptr, int n, void *target)` -/
def subtract_array_int (ptr : ℕ → ℚ) (n : ℤ) (target : ℕ → ℤ) : Option (Bufs ℚ ℤ) :=
  for_loop_ub n
    (fun i m => do
      let v ← cast_int (double_add (to_double (m.source i)) (1 / 2))
      let d ← int_sub (m.target i) v
      pure { m with target := Function.update m.target i d })
    ⟨ptr, target⟩

/-! ## Rounding rules and example data the specification compares with -/

/-- The canonical array `[1.2, 1.5, 2.9, -1.5]` of the rounding example, as
`float` values (1.2 and 2.9 are the nearest `float`s), followed by zeros. -/
def rounding_example : ℕ → ℚ :=
  buf_of_list [to_float (6 / 5), 3 / 2, to_float (29 / 10), -3 / 2] 0

/-- Round to the nearest integer, ties away from zero. -/
def roundHalfAway (x : ℚ) : ℤ := if 0 ≤ x then ⌊x + 1 / 2⌋ else ⌈x - 1 / 2⌉

/-! ## Calling a converter through its pointer -/

/-- One element of a raw buffer, tagged with the type it is stored as. -/
inductive RawElem where
  | byt (v : ℕ)
  | int (v : ℤ)
  | flt (v : ℚ)
  | dbl (v : ℚ)

/-- A raw buffer (`const void *`), tagged with the type of its elements. -/
inductive RawBuf where
  | byt (b : ℕ → ℕ)
  | int (b : ℕ → ℤ)
  | flt (b : ℕ → ℚ)
  | dbl (b : ℕ → ℚ)

/-- Element `i` of a raw buffer. -/
def RawBuf.elem : RawBuf → ℕ → RawElem
  | RawBuf.byt b, i => RawElem.byt (b i)
  | RawBuf.int b, i => RawElem.int (b i)
  | RawBuf.flt b, i => RawElem.flt (b i)
  | RawBuf.dbl b, i => RawElem.dbl (b i)

/-- The data type code of the element type of a raw buffer. -/
def RawBuf.dtype (K : Consts) : RawBuf → ℤ
  | RawBuf.byt _ => K.SEP_TBYTE
  | RawBuf.int _ => K.SEP_TINT
  | RawBuf.flt _ => K.SEP_TFLOAT
  | RawBuf.dbl _ => K.SEP_TDOUBLE

/-- The call `f(ptr)` through a `converter` pointer, `ptr` pointing to the
element. Reading an element as another type than it is stored as depends on the
memory layout and has no result here. -/
def converter.call : converter → RawElem → Option ℚ
  | converter.convert_dbl, RawElem.dbl v => some (Sep.convert_dbl v)
  | converter.convert_flt, RawElem.flt v => some (Sep.convert_flt v)
  | converter.convert_int, RawElem.int v => some (Sep.convert_int v)
  | converter.convert_byt, RawElem.byt v => some (Sep.convert_byt v)
  | _, _ => none

/-- The call `f(ptr, n, target)` through an `array_converter` pointer: the new
contents of `target`. Reading a buffer as another type than it is stored as has
no result here. -/
def array_converter.call : array_converter → RawBuf → ℤ → (ℕ → ℚ) → Option (ℕ → ℚ)
  | array_converter.convert_array_flt, RawBuf.flt b, n, target =>
    some (Sep.convert_array_flt b n target).target
  | array_converter.convert_array_dbl, RawBuf.dbl b, n, target =>
    some (Sep.convert_array_dbl b n target).target
  | array_converter.convert_array_int, RawBuf.int b, n, target =>
    some (Sep.convert_array_int b n target).target
  | array_converter.convert_array_byt, RawBuf.byt b, n, target =>
    some (Sep.convert_array_byt b n target).target
  | _, _, _, _ => none

/-! ## Array median -/

/-- The sum `a + b` of two finite `float` operands. -/
def float_add (a b : ℚ) : FVal := float_result (a + b)

/-- The quotient `a / 2.0` of a `double` by the constant `2.0`. -/
def double_div_two : FVal → FVal
  | FVal.fin a => double_result (a / 2)
  | FVal.pinf => FVal.pinf
  | FVal.ninf => FVal.ninf

/-- The function `static int fqcmp(const void *p1, const void *p2)`, on the `float`s
the pointers refer to. -/
def fqcmp (p1 p2 : ℚ) : ℤ :=
  let f1 := to_double p1
  let f2 := to_double p2
  if f1 > f2 then 1 else if f1 < f2 then -1 else 0

/-- The call `qsort(base, nmemb, size, compar)` of the C library on a buffer of
`float`s: the first `nmemb` elements are put in ascending order of `compar`. The
count is a `size_t`; a negative `int` passed for it becomes a count beyond any
buffer, which is undefined (`none`). The library does not fix the algorithm;
elements of a `float` buffer that compare equal are the same number, so every
algorithm leaves the same values, and insertion sort stands for them. -/
def qsort (base : ℕ → ℚ) (nmemb : ℤ) (compar : ℚ → ℚ → ℤ) : Option (ℕ → ℚ) :=
  if nmemb < 0 then none
  else
    let sorted := List.insertionSort (fun a b => compar a b ≤ 0)
      ((List.range nmemb.toNat).map base)
    some (fun j => if (j : ℤ) < nmemb then sorted.getD j 0 else base j)

/-- The function `float fqmedian(float *ra, int n)`: the returned value and the
array after the call. `n&1` is `n % 2`; the even case adds in `float`, converts
the sum to `double`, divides by `2.0` in `double` and converts the quotient to
the `float` that is returned; the sum of two finite elements can overflow, so
the returned value is finite or an infinity. -/
def fqmedian (ra : ℕ → ℚ) (n : ℤ) : Option (FVal × (ℕ → ℚ)) := do
  let ra ← qsort ra n fqcmp
  if n < 2 then
    pure (FVal.fin (ra 0), ra)
  else if n % 2 ≠ 0 then
    pure (FVal.fin (ra (n / 2).toNat), ra)
  else
    pure (double_to_float (double_div_two
      (float_to_double (float_add (ra (n / 2 - 1).toNat) (ra (n / 2).toNat)))), ra)

/-- The first `n` elements of a buffer, as a list. -/
def first_elems (ra : ℕ → ℚ) (n : ℤ) : List ℚ := (List.range n.toNat).map ra

/-- The buffer `ra` with its first `n` elements put in ascending order of `fqcmp`:
the array that `qsort(ra, n, sizeof(float), fqcmp)` leaves. -/
def qsorted (ra : ℕ → ℚ) (n : ℤ) : ℕ → ℚ :=
  fun j => if (j : ℤ) < n
    then (List.insertionSort (fun a b => fqcmp a b ≤ 0) (first_elems ra n)).getD j 0
    else ra j

/-! ## Status messages -/

/-- The eleven status codes, in the order of the `case` labels of `sep_get_errmsg`. -/
def Consts.statusCodes (K : Consts) : List ℤ :=
  [K.RETURN_OK, K.MEMORY_ALLOC_ERROR, K.PIXSTACK_FULL, K.DEBLEND_OVERFLOW, K.ILLEGAL_DTYPE,
    K.ILLEGAL_SUBPIX, K.NON_ELLIPSE_PARAMS, K.ILLEGAL_APER_PARAMS, K.LINE_NOT_IN_BUF,
    K.RELTHRESH_NO_NOISE, K.UNKNOWN_NOISE_TYPE]

/-- The eleven status codes are pairwise different (C requires it of the `case`
labels of one `switch`). -/
def Consts.statusDistinct (K : Consts) : Prop := K.statusCodes.Nodup

instance (K : Consts) : Decidable K.statusDistinct := by
  unfold Consts.statusDistinct; infer_instance

/-- The status is one of the eleven enumerated codes. -/
def Consts.isStatus (K : Consts) (status : ℤ) : Prop := status ∈ K.statusCodes

instance (K : Consts) (status : ℤ) : Decidable (K.isStatus status) := by
  unfold Consts.isStatus; infer_instance

/-- The message of the `default` label of `sep_get_errmsg`. -/
def unknown_error_message : String := "unknown error status"

/-- The function `void sep_get_errmsg(int status, char *errtext)`: returns the text
left in `errtext`. The `switch` is the chain of comparisons with its labels (the
labels are distinct, so the order does not matter); every branch copies its text
with `strcpy_s(errtext, 61, ...)`. -/
def sep_get_errmsg (K : Consts) (status : ℤ) : String :=
  if status = K.RETURN_OK then (strcpy_s 61 "OK - no error").dest
  else if status = K.MEMORY_ALLOC_ERROR then (strcpy_s 61 "memory allocation").dest
  else if status = K.PIXSTACK_FULL then (strcpy_s 61 "internal pixel buffer full").dest
  else if status = K.DEBLEND_OVERFLOW then (strcpy_s 61 "object deblending overflow").dest
  else if status = K.ILLEGAL_DTYPE then
    (strcpy_s 61 "dtype not recognized/unsupported").dest
  else if status = K.ILLEGAL_SUBPIX then
    (strcpy_s 61 "subpix value must be nonnegative").dest
  else if status = K.NON_ELLIPSE_PARAMS then
    (strcpy_s 61 "parameters do not describe ellipse").dest
  else if status = K.ILLEGAL_APER_PARAMS then
    (strcpy_s 61 "invalid aperture parameters").dest
  else if status = K.LINE_NOT_IN_BUF then (strcpy_s 61 "array line out of buffer").dest
  else if status = K.RELTHRESH_NO_NOISE then
    (strcpy_s 61 "relative threshold but image has noise_type of NONE").dest
  else if status = K.UNKNOWN_NOISE_TYPE then
    (strcpy_s 61 "image has unknown noise_type").dest
  else (strcpy_s 61 unknown_error_message).dest

/-- The texts `sep_get_errmsg` can leave in `errtext`. -/
def errmsg_texts : List String :=
  ["OK - no error", "memory allocation", "internal pixel buffer full",
    "object deblending overflow", "dtype not recognized/unsupported",
    "subpix value must be nonnegative", "parameters do not describe ellipse",
    "invalid aperture parameters", "array line out of buffer",
    "relative threshold but image has noise_type of NONE", "image has unknown noise_type",
    "unknown error status"]

/-- A text of 512 characters, one more than the detail slot can hold. -/
def long_text : String := String.mk (List.replicate 512 'a')

/-- The first `k` characters of a text. -/
def first_chars (k : ℕ) (text : String) : String := String.mk (text.data.take k)

/-! ## Properties of the resolvers and of the detail slot -/

/-- The text `%d` produces for a C `int` has at most eleven characters. -/
lemma fmt_d_length_le (x : ℤ) (hx : isInt x) : (fmt_d x).length ≤ 11 := by
  obtain ⟨h1, h2⟩ := hx
  unfold INT_MIN at h1
  unfold INT_MAX at h2
  unfold fmt_d
  cases x with
  | ofNat m =>
    have hm : m < 10 ^ 10 := by
      have : (m : ℤ) ≤ 2147483647 := h2
      omega
    have := Nat.repr_length m 10 (by norm_num) hm
    show (Nat.repr m).length ≤ 11
    omega
  | negSucc m =>
    have hm : m + 1 < 10 ^ 10 := by
      have h : -2147483648 ≤ -((m : ℤ) + 1) := by
        rw [← Int.negSucc_eq]; exact h1
      omega
    have := Nat.repr_length (m + 1) 10 (by norm_num) hm
    show ("-" ++ Nat.repr (m + 1)).length ≤ 11
    rw [String.length_append]
    have : "-".length = 1 := rfl
    omega

/-- The text `get_array_subtractor` formats fits its 80-byte local buffer. -/
lemma subtractor_text_length (x : ℤ) (hx : isInt x) :
    ("in get_array_subtractor(): " ++ fmt_d x).length ≤ 38 := by
  rw [String.length_append]
  have h := fmt_d_length_le x hx
  have : "in get_array_subtractor(): ".length = 27 := rfl
  omega

/-- A text that fits is copied unchanged by `strcpy_s`. -/
lemma strcpy_s_fits (destsz : ℕ) (src : String) (h : src.length < destsz) :
    strcpy_s destsz src = ⟨src, false⟩ := by
  unfold strcpy_s; rw [if_pos h]

/-- A text that fits is stored unchanged by `sprintf_s`. -/
lemma sprintf_s_fits (destsz : ℕ) (txt : String) (h : txt.length < destsz) :
    sprintf_s destsz txt = ⟨txt, false⟩ := by
  unfold sprintf_s; rw [if_pos h]

/-- A string with a non-empty left part is not empty. -/
lemma append_ne_empty (a b : String) (ha : 0 < a.length) : a ++ b ≠ "" := by
  intro h
  have := congrArg String.length h
  rw [String.length_append] at this
  have h0 : "".length = 0 := rfl
  omega

/-- C1: for each of the four type tags BYTE, INT, FLOAT, DOUBLE, both
`get_converter` and `get_array_converter` return `RETURN_OK`, the (non-null)
function of that tag, and the element size 1, 4, 4, 8 respectively. -/
theorem resolve_converters_ok (K : Consts) (hK : K.tagsDistinct) (s : SepState) :
    (get_converter K K.SEP_TBYTE s).1 = ⟨K.RETURN_OK, some converter.convert_byt, 1⟩ ∧
    (get_converter K K.SEP_TINT s).1 = ⟨K.RETURN_OK, some converter.convert_int, 4⟩ ∧
    (get_converter K K.SEP_TFLOAT s).1 = ⟨K.RETURN_OK, some converter.convert_flt, 4⟩ ∧
    (get_converter K K.SEP_TDOUBLE s).1 = ⟨K.RETURN_OK, some converter.convert_dbl, 8⟩ ∧
    (get_array_converter K K.SEP_TBYTE s).1
      = ⟨K.RETURN_OK, some array_converter.convert_array_byt, 1⟩ ∧
    (get_array_converter K K.SEP_TINT s).1
      = ⟨K.RETURN_OK, some array_converter.convert_array_int, 4⟩ ∧
    (get_array_converter K K.SEP_TFLOAT s).1
      = ⟨K.RETURN_OK, some array_converter.convert_array_flt, 4⟩ ∧
    (get_array_converter K K.SEP_TDOUBLE s).1
      = ⟨K.RETURN_OK, some array_converter.convert_array_dbl, 8⟩ := by
  simp only [Consts.tagsDistinct, List.nodup_cons, List.mem_cons, List.mem_singleton,
    List.not_mem_nil, not_or, List.nodup_nil, and_true, not_false_eq_true] at hK
  obtain ⟨⟨hbi, hbf, hbd⟩, ⟨hif, hid⟩, hfd⟩ := hK
  simp [get_converter, get_array_converter, sizeof_BYTE, sizeof_int, sizeof_float,
    sizeof_double, hbi, hbf, hbd, hif, hid, hfd, Ne.symm hbf, Ne.symm hif, Ne.symm hid,
    Ne.symm hfd, Ne.symm hbi, Ne.symm hbd]

/-- Witness of C1 at the constants of the SEP headers. -/
theorem resolve_converters_ok_witness :
    sepConsts.tagsDistinct ∧
    (get_converter sepConsts 11 ⟨""⟩).1 = ⟨0, some converter.convert_byt, 1⟩ ∧
    (get_array_converter sepConsts 82 ⟨""⟩).1
      = ⟨0, some array_converter.convert_array_dbl, 8⟩ :=
  ⟨by decide, (resolve_converters_ok sepConsts (by decide) ⟨""⟩).1,
    (resolve_converters_ok sepConsts (by decide) ⟨""⟩).2.2.2.2.2.2.2⟩

/-- C2: for every integer tag that is not one of BYTE, INT, FLOAT, DOUBLE,
`get_converter` and `get_array_converter` return `ILLEGAL_DTYPE` with a null
function and size 0; and each of them returns `RETURN_OK` exactly when the tag is
in the closed set. -/
theorem resolve_converters_illegal (K : Consts) (hne : K.RETURN_OK ≠ K.ILLEGAL_DTYPE)
    (dtype : ℤ) (s : SepState) :
    (¬ K.isTag dtype →
      (get_converter K dtype s).1 = ⟨K.ILLEGAL_DTYPE, none, 0⟩ ∧
      (get_array_converter K dtype s).1 = ⟨K.ILLEGAL_DTYPE, none, 0⟩) ∧
    ((get_converter K dtype s).1.status = K.RETURN_OK ↔ K.isTag dtype) ∧
    ((get_array_converter K dtype s).1.status = K.RETURN_OK ↔ K.isTag dtype) := by
  have hne' := Ne.symm hne
  simp only [Consts.isTag, get_converter, get_array_converter]
  split_ifs <;> simp_all

/-- Witness of C2: the tag 99 with the constants of the SEP headers. -/
theorem resolve_converters_illegal_witness :
    sepConsts.RETURN_OK ≠ sepConsts.ILLEGAL_DTYPE ∧
    (¬ sepConsts.isTag 99 →
      (get_converter sepConsts 99 ⟨"x"⟩).1 = ⟨sepConsts.ILLEGAL_DTYPE, none, 0⟩ ∧
      (get_array_converter sepConsts 99 ⟨"x"⟩).1 = ⟨sepConsts.ILLEGAL_DTYPE, none, 0⟩) :=
  ⟨by decide, (resolve_converters_illegal sepConsts (by decide) 99 ⟨"x"⟩).1⟩

/-- C3: for every integer tag, `get_array_writer` returns `RETURN_OK` exactly when
the tag is INT or DOUBLE and `get_array_subtractor` returns `RETURN_OK` exactly
when the tag is FLOAT, INT or DOUBLE; in every other case the resolver returns
`ILLEGAL_DTYPE` with a null function and size 0, which includes BYTE and FLOAT
for the writer and BYTE for the subtractor. -/
theorem resolve_writer_subtractor_support (K : Consts)
    (hne : K.RETURN_OK ≠ K.ILLEGAL_DTYPE) (dtype : ℤ) (s : SepState) :
    ((get_array_writer K dtype s).1.status = K.RETURN_OK ↔
      (dtype = K.SEP_TINT ∨ dtype = K.SEP_TDOUBLE)) ∧
    ((get_array_subtractor K dtype s).1.status = K.RETURN_OK ↔
      (dtype = K.SEP_TFLOAT ∨ dtype = K.SEP_TINT ∨ dtype = K.SEP_TDOUBLE)) ∧
    (¬ (dtype = K.SEP_TINT ∨ dtype = K.SEP_TDOUBLE) →
      (get_array_writer K dtype s).1 = ⟨K.ILLEGAL_DTYPE, none, 0⟩) ∧
    (¬ (dtype = K.SEP_TFLOAT ∨ dtype = K.SEP_TINT ∨ dtype = K.SEP_TDOUBLE) →
      (get_array_subtractor K dtype s).1 = ⟨K.ILLEGAL_DTYPE, none, 0⟩) ∧
    (K.tagsDistinct →
      (get_array_writer K K.SEP_TBYTE s).1 = ⟨K.ILLEGAL_DTYPE, none, 0⟩ ∧
      (get_array_writer K K.SEP_TFLOAT s).1 = ⟨K.ILLEGAL_DTYPE, none, 0⟩ ∧
      (get_array_subtractor K K.SEP_TBYTE s).1 = ⟨K.ILLEGAL_DTYPE, none, 0⟩) := by
  have hne' := Ne.symm hne
  refine ⟨?_, ?_, ?_, ?_, ?_⟩
  · simp only [get_array_writer]
    split_ifs <;> simp_all
  · simp only [get_array_subtractor]
    split_ifs <;> simp_all
  · intro h
    simp only [get_array_writer]
    split_ifs <;> simp_all
  · intro h
    simp only [get_array_subtractor]
    split_ifs <;> simp_all
  · intro hK
    simp only [Consts.tagsDistinct, List.nodup_cons, List.mem_cons, List.mem_singleton,
      List.not_mem_nil, not_or, List.nodup_nil, and_true, not_false_eq_true] at hK
    obtain ⟨⟨hbi, hbf, hbd⟩, ⟨hif, hid⟩, hfd⟩ := hK
    simp [get_array_writer, get_array_subtractor, hbi, hbf, hbd, hfd, Ne.symm hif]

/-- Witness of C3: the tag BYTE (11) with the constants of the SEP headers. -/
theorem resolve_writer_subtractor_support_witness :
    sepConsts.RETURN_OK ≠ sepConsts.ILLEGAL_DTYPE ∧
    ((get_array_writer sepConsts 11 ⟨""⟩).1.status = sepConsts.RETURN_OK ↔
      ((11 : ℤ) = sepConsts.SEP_TINT ∨ (11 : ℤ) = sepConsts.SEP_TDOUBLE)) :=
  ⟨by decide, (resolve_writer_subtractor_support sepConsts (by decide) 11 ⟨""⟩).1⟩

/-- C4: whatever the detail slot held before, after `get_array_subtractor` fails
on a tag it does not support (BYTE or any other `int` that is not FLOAT, INT or
DOUBLE), the first `sep_get_errdetail` returns the non-empty text
"in get_array_subtractor(): " followed by the tag in decimal, and a second
`sep_get_errdetail` with no write in between returns the empty string. -/
theorem subtractor_failure_detail (K : Consts) (dtype : ℤ) (hd : isInt dtype)
    (hu : ¬ (dtype = K.SEP_TFLOAT ∨ dtype = K.SEP_TINT ∨ dtype = K.SEP_TDOUBLE))
    (s : SepState) :
    (get_array_subtractor K dtype s).1.status = K.ILLEGAL_DTYPE ∧
    (sep_get_errdetail (get_array_subtractor K dtype s).2).1
      = "in get_array_subtractor(): " ++ fmt_d dtype ∧
    (sep_get_errdetail (get_array_subtractor K dtype s).2).1 ≠ "" ∧
    (sep_get_errdetail (sep_get_errdetail (get_array_subtractor K dtype s).2).2).1 = "" := by
  have hlen := subtractor_text_length dtype hd
  have h80 : ("in get_array_subtractor(): " ++ fmt_d dtype).length < 80 := by omega
  have h512 : ("in get_array_subtractor(): " ++ fmt_d dtype).length < DETAILSIZE := by
    unfold DETAILSIZE; omega
  have hrun : get_array_subtractor K dtype s
      = (⟨K.ILLEGAL_DTYPE, none, 0⟩,
          ⟨"in get_array_subtractor(): " ++ fmt_d dtype⟩) := by
    simp only [not_or] at hu
    unfold get_array_subtractor
    rw [if_neg hu.1, if_neg hu.2.1, if_neg hu.2.2]
    simp only [put_errdetail, sprintf_s_fits _ _ h80, strcpy_s_fits _ _ h512]
  have hget : (sep_get_errdetail ⟨"in get_array_subtractor(): " ++ fmt_d dtype⟩)
      = ("in get_array_subtractor(): " ++ fmt_d dtype, ⟨""⟩) := by
    simp only [sep_get_errdetail, strcpy_s_fits _ _ h512]
  have hget2 : (sep_get_errdetail ⟨""⟩).1 = "" := by
    simp [sep_get_errdetail, strcpy_s, DETAILSIZE]
  rw [hrun]
  refine ⟨rfl, ?_, ?_, ?_⟩
  · rw [hget]
  · rw [hget]
    exact append_ne_empty _ _ (by decide)
  · rw [hget]
    exact hget2

/-- Witness of C4: the tag BYTE (11) with the constants of the SEP headers, on a
slot that held another text. -/
theorem subtractor_failure_detail_witness :
    isInt 11 ∧
    ¬ ((11 : ℤ) = sepConsts.SEP_TFLOAT ∨ (11 : ℤ) = sepConsts.SEP_TINT
        ∨ (11 : ℤ) = sepConsts.SEP_TDOUBLE) ∧
    (sep_get_errdetail (get_array_subtractor sepConsts 11 ⟨"old"⟩).2).1
      = "in get_array_subtractor(): " ++ fmt_d 11 :=
  ⟨by decide, by decide,
    (subtractor_failure_detail sepConsts 11 (by decide) (by decide) ⟨"old"⟩).2.1⟩

/-- C5: for every tag, valid or not, `get_converter`, `get_array_converter` and
`get_array_writer` leave the detail slot exactly as it was (so a failure with
`ILLEGAL_DTYPE` on an empty slot leaves it empty); `get_array_subtractor` leaves
it unchanged whenever it returns `RETURN_OK`. -/
theorem resolvers_preserve_detail (K : Consts) (hne : K.RETURN_OK ≠ K.ILLEGAL_DTYPE)
    (dtype : ℤ) (s : SepState) :
    (get_converter K dtype s).2 = s ∧
    (get_array_converter K dtype s).2 = s ∧
    (get_array_writer K dtype s).2 = s ∧
    ((get_array_subtractor K dtype s).1.status = K.RETURN_OK →
      (get_array_subtractor K dtype s).2 = s) ∧
    (s._errdetail_buffer = "" →
      (get_converter K dtype s).2._errdetail_buffer = "" ∧
      (get_array_converter K dtype s).2._errdetail_buffer = "" ∧
      (get_array_writer K dtype s).2._errdetail_buffer = "") := by
  have hne' := Ne.symm hne
  refine ⟨?_, ?_, ?_, ?_, ?_⟩
  · simp only [get_converter]
    split_ifs <;> rfl
  · simp only [get_array_converter]
    split_ifs <;> rfl
  · simp only [get_array_writer]
    split_ifs <;> rfl
  · simp only [get_array_subtractor]
    split_ifs <;> simp_all
  · intro h
    refine ⟨?_, ?_, ?_⟩
    · simp only [get_converter]
      split_ifs <;> exact h
    · simp only [get_array_converter]
      split_ifs <;> exact h
    · simp only [get_array_writer]
      split_ifs <;> exact h

/-- Witness of C5: an unknown tag on an empty slot and on a slot with text. -/
theorem resolvers_preserve_detail_witness :
    sepConsts.RETURN_OK ≠ sepConsts.ILLEGAL_DTYPE ∧
    (get_converter sepConsts 7 ⟨""⟩).2 = ⟨""⟩ ∧
    (get_array_writer sepConsts 11 ⟨"kept"⟩).2 = ⟨"kept"⟩ :=
  ⟨by decide, (resolvers_preserve_detail sepConsts (by decide) 7 ⟨""⟩).1,
    (resolvers_preserve_detail sepConsts (by decide) 11 ⟨"kept"⟩).2.2.1⟩

/-! ## Properties of rounding -/

lemma roundHalfEven_intCast (k : ℤ) : roundHalfEven (k : ℚ) = k := by
  unfold roundHalfEven
  simp

lemma floor_le_roundHalfEven (x : ℚ) : ⌊x⌋ ≤ roundHalfEven x := by
  unfold roundHalfEven
  split_ifs <;> omega

lemma roundHalfEven_le_floor_add_one (x : ℚ) : roundHalfEven x ≤ ⌊x⌋ + 1 := by
  unfold roundHalfEven
  split_ifs <;> omega

lemma le_roundHalfEven (k : ℤ) (x : ℚ) (h : (k : ℚ) ≤ x) : k ≤ roundHalfEven x :=
  le_trans (Int.le_floor.mpr h) (floor_le_roundHalfEven x)

lemma roundHalfEven_le (k : ℤ) (x : ℚ) (h : x ≤ (k : ℚ)) : roundHalfEven x ≤ k := by
  rcases eq_or_lt_of_le h with h | h
  · rw [h, roundHalfEven_intCast]
  · have : ⌊x⌋ < k := Int.floor_lt.mpr h
    have := roundHalfEven_le_floor_add_one x
    omega

lemma two_zpow_pos (e : ℤ) : (0 : ℚ) < 2 ^ e := zpow_pos (by norm_num) e

/-- A quotient by a power of two with a smaller exponent is an integer. -/
lemma mul_zpow_div_zpow (m e u : ℤ) (h : u ≤ e) :
    (m : ℚ) * 2 ^ e / 2 ^ u = ((m * 2 ^ (e - u).toNat : ℤ) : ℚ) := by
  have hu : (2 : ℚ) ^ u ≠ 0 := (two_zpow_pos u).ne'
  have he : (2 : ℚ) ^ e = 2 ^ (e - u) * 2 ^ u := by
    rw [← zpow_add₀ (by norm_num : (2 : ℚ) ≠ 0)]; congr 1; ring
  have hn : (2 : ℚ) ^ (e - u) = ((2 ^ (e - u).toNat : ℤ) : ℚ) := by
    push_cast
    rw [← zpow_natCast, Int.toNat_of_nonneg (by omega)]
  rw [he, ← mul_assoc, mul_div_assoc, div_self hu, mul_one, hn]
  push_cast
  ring

lemma ulpExp_le_of_lt (p : ℕ) (emin e : ℤ) (x : ℚ) (hx : x ≠ 0) (he : emin ≤ e)
    (h : |x| < 2 ^ ((p : ℤ) + e)) : ulpExp p emin x ≤ e := by
  unfold ulpExp
  have hpos : 0 < |x| := abs_pos.mpr hx
  have := (Int.lt_zpow_iff_log_lt (by norm_num : 1 < 2) hpos).mp (by exact_mod_cast h)
  exact max_le (by omega) he

lemma roundTo_zero (p : ℕ) (emin : ℤ) : roundTo p emin 0 = 0 := by
  unfold roundTo
  rw [zero_div]
  have : roundHalfEven 0 = 0 := by simpa using roundHalfEven_intCast 0
  rw [this]; simp

/-- A value `m * 2 ^ e` with `|m| < 2 ^ p` and `emin ≤ e` is not changed by rounding. -/
lemma roundTo_of_rep (p : ℕ) (emin m e : ℤ) (hm : |m| < 2 ^ p) (he : emin ≤ e) :
    roundTo p emin ((m : ℚ) * 2 ^ e) = (m : ℚ) * 2 ^ e := by
  by_cases hm0 : m = 0
  · subst hm0; simp [roundTo_zero]
  have hx : (m : ℚ) * 2 ^ e ≠ 0 :=
    mul_ne_zero (by exact_mod_cast hm0) (two_zpow_pos e).ne'
  have hlt : |(m : ℚ) * 2 ^ e| < 2 ^ ((p : ℤ) + e) := by
    rw [abs_mul, abs_of_pos (two_zpow_pos e), zpow_add₀ (by norm_num : (2 : ℚ) ≠ 0)]
    apply mul_lt_mul_of_pos_right _ (two_zpow_pos e)
    rw [zpow_natCast]
    exact_mod_cast hm
  have hu := ulpExp_le_of_lt p emin e _ hx he hlt
  unfold roundTo
  rw [mul_zpow_div_zpow m e _ hu, roundHalfEven_intCast, ← mul_zpow_div_zpow m e _ hu]
  exact div_mul_cancel₀ _ (two_zpow_pos _).ne'

lemma emin_le_ulpExp (p : ℕ) (emin : ℤ) (x : ℚ) : emin ≤ ulpExp p emin x :=
  le_max_right _ _

/-- The scaled value that is rounded to an integer is below `2 ^ p` in magnitude. -/
lemma abs_div_ulp_lt (p : ℕ) (emin : ℤ) (x : ℚ) :
    |x / 2 ^ ulpExp p emin x| < 2 ^ p := by
  have hu : Int.log 2 |x| - ((p : ℤ) - 1) ≤ ulpExp p emin x := le_max_left _ _
  have h1 : |x| < 2 ^ (Int.log 2 |x| + 1) := by
    exact_mod_cast Int.lt_zpow_succ_log_self (by norm_num : 1 < 2) |x|
  have h2 : (2 : ℚ) ^ (Int.log 2 |x| + 1) ≤ 2 ^ ((p : ℤ) + ulpExp p emin x) :=
    zpow_le_zpow_right₀ (by norm_num) (by omega)
  rw [abs_div, abs_of_pos (two_zpow_pos _), div_lt_iff₀ (two_zpow_pos _)]
  calc |x| < 2 ^ (Int.log 2 |x| + 1) := h1
    _ ≤ 2 ^ ((p : ℤ) + ulpExp p emin x) := h2
    _ = 2 ^ p * 2 ^ ulpExp p emin x := by
      rw [zpow_add₀ (by norm_num : (2 : ℚ) ≠ 0), zpow_natCast]

/-- Every rounded value is `m * 2 ^ e` with `|m| ≤ 2 ^ p` and `emin ≤ e`. -/
lemma roundTo_rep (p : ℕ) (emin : ℤ) (x : ℚ) :
    ∃ m e : ℤ, |m| ≤ 2 ^ p ∧ emin ≤ e ∧ roundTo p emin x = (m : ℚ) * 2 ^ e := by
  refine ⟨roundHalfEven (x / 2 ^ ulpExp p emin x), ulpExp p emin x, ?_,
    emin_le_ulpExp p emin x, rfl⟩
  have h := abs_div_ulp_lt p emin x
  rw [abs_lt] at h
  rw [abs_le]
  constructor
  · have := le_roundHalfEven (-(2 ^ p)) (x / 2 ^ ulpExp p emin x) (by push_cast; exact h.1.le)
    exact this
  · exact roundHalfEven_le (2 ^ p) (x / 2 ^ ulpExp p emin x) (by push_cast; exact h.2.le)

/-- A value `m * 2 ^ e` with `|m| ≤ 2 ^ p`, `emin ≤ e` and `1 ≤ p` is not changed by
rounding. -/
lemma roundTo_of_rep_le (p : ℕ) (hp : 1 ≤ p) (emin m e : ℤ) (hm : |m| ≤ 2 ^ p)
    (he : emin ≤ e) : roundTo p emin ((m : ℚ) * 2 ^ e) = (m : ℚ) * 2 ^ e := by
  rcases lt_or_eq_of_le hm with h | h
  · exact roundTo_of_rep p emin m e h he
  · obtain ⟨q, rfl⟩ : ∃ q, p = q + 1 := ⟨p - 1, by omega⟩
    have hq : |(2 : ℤ) ^ q| < 2 ^ (q + 1) := by
      rw [abs_of_pos (by positivity)]
      exact pow_lt_pow_right₀ (by norm_num) (by omega)
    have key : ∀ m' : ℤ, |m'| = 2 ^ q → roundTo (q + 1) emin ((2 * m' : ℤ) * 2 ^ e : ℚ)
        = ((2 * m' : ℤ) : ℚ) * 2 ^ e := by
      intro m' hm'
      have e1 : ((2 * m' : ℤ) : ℚ) * 2 ^ e = (m' : ℚ) * 2 ^ (e + 1) := by
        rw [zpow_add₀ (by norm_num : (2 : ℚ) ≠ 0)]; push_cast; ring
      rw [e1]
      exact roundTo_of_rep (q + 1) emin m' (e + 1) (by rw [hm']; rw [abs_of_pos] at hq
                                                       · exact hq
                                                       · positivity) (by omega)
    have hm2 : m = 2 * (m / 2) ∧ |m / 2| = 2 ^ q := by
      rcases abs_cases m with ⟨h1, _⟩ | ⟨h1, _⟩
      · rw [h1] at h
        have : m / 2 = 2 ^ q := by rw [h, pow_succ]; simp
        rw [this, abs_of_pos (by positivity)]
        refine ⟨?_, rfl⟩
        rw [h, pow_succ]; ring
      · rw [h1] at h
        have hm' : m = -(2 ^ q * 2) := by rw [← pow_succ]; omega
        have : m / 2 = -(2 ^ q) := by
          rw [hm', Int.neg_mul_eq_neg_mul, Int.mul_ediv_cancel _ (by norm_num)]
        rw [this, abs_neg, abs_of_pos (by positivity)]
        refine ⟨?_, rfl⟩
        rw [hm']; ring
    have := key (m / 2) hm2.2
    rw [← hm2.1] at this
    exact this

/-- A value that one format represents is represented by every format with at
least as many significand bits and an exponent range at least as wide. -/
lemma roundTo_of_roundTo (p p' : ℕ) (hp' : 1 ≤ p') (emin emin' : ℤ) (hp : p ≤ p')
    (he : emin' ≤ emin) (x : ℚ) (hx : roundTo p emin x = x) : roundTo p' emin' x = x := by
  obtain ⟨m, e, hm, hme, hrep⟩ := roundTo_rep p emin x
  rw [hx] at hrep
  rw [hrep]
  refine roundTo_of_rep_le p' hp' emin' m e (hm.trans ?_) (by omega)
  exact pow_le_pow_right₀ (by norm_num) hp

/-- Rounding does not cross a multiple of the unit in the last place: lower bound. -/
lemma le_roundTo (p : ℕ) (emin : ℤ) (x : ℚ) (a : ℤ)
    (h : (a : ℚ) * 2 ^ ulpExp p emin x ≤ x) : (a : ℚ) * 2 ^ ulpExp p emin x ≤ roundTo p emin x := by
  unfold roundTo
  apply mul_le_mul_of_nonneg_right _ (two_zpow_pos _).le
  have : (a : ℚ) ≤ x / 2 ^ ulpExp p emin x := (le_div_iff₀ (two_zpow_pos _)).mpr h
  exact_mod_cast le_roundHalfEven a _ this

/-- Rounding does not cross a multiple of the unit in the last place: upper bound. -/
lemma roundTo_le (p : ℕ) (emin : ℤ) (x : ℚ) (a : ℤ)
    (h : x ≤ (a : ℚ) * 2 ^ ulpExp p emin x) : roundTo p emin x ≤ (a : ℚ) * 2 ^ ulpExp p emin x := by
  unfold roundTo
  apply mul_le_mul_of_nonneg_right _ (two_zpow_pos _).le
  have : x / 2 ^ ulpExp p emin x ≤ (a : ℚ) := (div_le_iff₀ (two_zpow_pos _)).mpr h
  exact_mod_cast roundHalfEven_le a _ this

/-- A `float` value is a `double` value: the widening conversion is exact. -/
lemma to_double_of_isFloat (x : ℚ) (hx : isFloat x) : to_double x = x :=
  roundTo_of_roundTo 24 53 (by norm_num) (-149) (-1074) (by norm_num) (by norm_num) x hx.1

/-- The largest finite `float` as a multiple of `2 ^ 104`. -/
lemma FLT_MAX_eq : FLT_MAX = ((2 ^ 24 - 1 : ℤ) : ℚ) * 2 ^ (104 : ℤ) := by
  unfold FLT_MAX
  norm_num

lemma FLT_MAX_pos : 0 < FLT_MAX := by
  unfold FLT_MAX
  norm_num

lemma FLT_MAX_le_DBL_MAX : FLT_MAX ≤ DBL_MAX := by
  unfold FLT_MAX DBL_MAX
  norm_num

/-- A finite `float` result is the rounded exact result. -/
lemma float_result_of_le (x : ℚ) (h : |to_float x| ≤ FLT_MAX) :
    float_result x = FVal.fin (to_float x) := by
  rw [abs_le] at h
  unfold float_result
  rw [if_neg (not_lt.mpr h.2), if_neg (not_lt.mpr h.1)]

/-- A finite `double` result is the rounded exact result. -/
lemma double_result_of_le (x : ℚ) (h : |to_double x| ≤ DBL_MAX) :
    double_result x = FVal.fin (to_double x) := by
  rw [abs_le] at h
  unfold double_result
  rw [if_neg (not_lt.mpr h.2), if_neg (not_lt.mpr h.1)]

/-- An exact result that is a `float` is delivered as it is. -/
lemma float_result_of_isFloat (x : ℚ) (h : isFloat x) : float_result x = FVal.fin x := by
  have h1 : |to_float x| ≤ FLT_MAX := by rw [h.1]; exact h.2
  rw [float_result_of_le x h1, h.1]

/-- An exact result that is a `double` is delivered as it is. -/
lemma double_result_of_isDouble (x : ℚ) (h : isDouble x) :
    double_result x = FVal.fin x := by
  have h1 : |to_double x| ≤ DBL_MAX := by rw [h.1]; exact h.2
  rw [double_result_of_le x h1, h.1]

lemma truncate_lt_add_one (x : ℚ) : x < truncate x + 1 := by
  unfold truncate
  split_ifs with h
  · exact Int.lt_floor_add_one x
  · have := Int.le_ceil x
    linarith

lemma truncate_sub_one_lt (x : ℚ) : (truncate x : ℚ) - 1 < x := by
  unfold truncate
  split_ifs with h
  · have := Int.floor_le x
    linarith
  · have := Int.ceil_lt_add_one x
    linarith

lemma truncate_eq_zero (x : ℚ) (h0 : 0 ≤ x) (h1 : x < 1) : truncate x = 0 := by
  unfold truncate
  rw [if_pos h0]
  exact Int.floor_eq_iff.mpr ⟨by simpa using h0, by simpa using h1⟩

/-- For a `float` value `x` of moderate size the `double` sum `x + 0.5` is either
exact or lies, with the exact sum, between 1/4 and 3/4. -/
lemma half_add_exact_or_small (x : ℚ) (hx : isFloat x) (hb : |x| < 2 ^ 51) :
    to_double (x + 1 / 2) = x + 1 / 2 ∨
    ((1 / 4 ≤ x + 1 / 2 ∧ x + 1 / 2 ≤ 3 / 4) ∧
      (1 / 4 ≤ to_double (x + 1 / 2) ∧ to_double (x + 1 / 2) ≤ 3 / 4)) := by
  obtain ⟨m, e, hm, he, hrep⟩ := roundTo_rep 24 (-149) x
  have hx1 := hx.1
  unfold to_float at hx1
  rw [hx1] at hrep
  have h2 : (2 : ℚ) ≠ 0 := by norm_num
  by_cases hbig : -1 ≤ e
  · -- x + 1/2 = (m * 2 ^ (e + 1) + 1) * 2 ^ (-1)
    left
    have hcast : ((m * 2 ^ (e + 1).toNat : ℤ) : ℚ) = 2 * x := by
      have := mul_zpow_div_zpow m e (-1) hbig
      rw [show e - -1 = e + 1 by ring] at this
      rw [← this, hrep]
      rw [zpow_neg, zpow_one]; field_simp; ring
    have hM : |m * 2 ^ (e + 1).toNat + 1| < (2 : ℤ) ^ 53 := by
      have h1 : |((m * 2 ^ (e + 1).toNat : ℤ) : ℚ)| < 2 ^ 52 := by
        rw [hcast, abs_mul, abs_of_pos (by norm_num : (0 : ℚ) < 2)]
        linarith
      have h3 : |m * 2 ^ (e + 1).toNat| < (2 : ℤ) ^ 52 := by
        have : ((|m * 2 ^ (e + 1).toNat| : ℤ) : ℚ) < ((2 ^ 52 : ℤ) : ℚ) := by
          push_cast; push_cast at h1; exact h1
        exact_mod_cast this
      have := abs_add (m * 2 ^ (e + 1).toNat) 1
      have h4 : |(1 : ℤ)| = 1 := abs_one
      norm_num at h3 ⊢
      omega
    have hxe : x + 1 / 2 = ((m * 2 ^ (e + 1).toNat + 1 : ℤ) : ℚ) * 2 ^ (-1 : ℤ) := by
      push_cast
      push_cast at hcast
      rw [hcast, zpow_neg, zpow_one]; ring
    unfold to_double
    rw [hxe]
    exact roundTo_of_rep 53 (-1074) _ (-1) hM (by norm_num)
  · by_cases hmid : -53 ≤ e
    · -- x + 1/2 = (m + 2 ^ (-1 - e)) * 2 ^ e
      left
      have hk : (-1 - e).toNat ≤ 52 := by omega
      have hpow : (2 : ℤ) ^ (-1 - e).toNat ≤ 2 ^ 52 := pow_le_pow_right₀ (by norm_num) hk
      have hM : |m + 2 ^ (-1 - e).toNat| < (2 : ℤ) ^ 53 := by
        have := abs_add m (2 ^ (-1 - e).toNat)
        have h4 : |(2 : ℤ) ^ (-1 - e).toNat| = 2 ^ (-1 - e).toNat := abs_of_pos (by positivity)
        norm_num at hm hpow ⊢
        omega
      have hhalf : (1 / 2 : ℚ) = ((2 ^ (-1 - e).toNat : ℤ) : ℚ) * 2 ^ e := by
        have := mul_zpow_div_zpow 1 (-1) e (by omega)
        rw [one_mul] at this
        rw [← this]
        rw [Int.cast_one, one_mul, div_mul_cancel₀ _ (two_zpow_pos e).ne', zpow_neg, zpow_one]
        norm_num
      have hxe : x + 1 / 2 = ((m + 2 ^ (-1 - e).toNat : ℤ) : ℚ) * 2 ^ e := by
        rw [hhalf, hrep]; push_cast; ring
      unfold to_double
      rw [hxe]
      exact roundTo_of_rep 53 (-1074) _ e hM (by omega)
    · -- |x| ≤ 2 ^ (-30)
      right
      have hxs : |x| ≤ 2 ^ (-30 : ℤ) := by
        rw [hrep, abs_mul, abs_of_pos (two_zpow_pos e)]
        have h1 : |(m : ℚ)| ≤ 2 ^ (24 : ℤ) := by
          have : ((|m| : ℤ) : ℚ) ≤ ((2 ^ 24 : ℤ) : ℚ) := by exact_mod_cast hm
          push_cast at this
          exact_mod_cast this
        have h3 : (2 : ℚ) ^ e ≤ 2 ^ (-54 : ℤ) := zpow_le_zpow_right₀ (by norm_num) (by omega)
        calc |(m : ℚ)| * 2 ^ e ≤ 2 ^ (24 : ℤ) * 2 ^ (-54 : ℤ) :=
              mul_le_mul h1 h3 (two_zpow_pos e).le (by positivity)
          _ = 2 ^ (-30 : ℤ) := by rw [← zpow_add₀ h2]; norm_num
      have hsmall : (2 : ℚ) ^ (-30 : ℤ) ≤ 1 / 4 := by
        rw [zpow_neg]; norm_num
      have hxq : |x| ≤ 1 / 4 := hxs.trans hsmall
      rw [abs_le] at hxq
      have hy : 1 / 4 ≤ x + 1 / 2 ∧ x + 1 / 2 ≤ 3 / 4 := by
        constructor <;> linarith
      refine ⟨hy, ?_⟩
      have hyne : x + 1 / 2 ≠ 0 := by linarith
      have hu : ulpExp 53 (-1074) (x + 1 / 2) ≤ -2 := by
        apply ulpExp_le_of_lt 53 (-1074) (-2) _ hyne (by norm_num)
        rw [abs_of_pos (by linarith)]
        have : (1 : ℚ) ≤ 2 ^ (((53 : ℕ) : ℤ) + -2) :=
          one_le_zpow₀ (by norm_num) (by norm_num)
        linarith
      have hq : (1 / 4 : ℚ)
          = ((2 ^ (-2 - ulpExp 53 (-1074) (x + 1 / 2)).toNat : ℤ) : ℚ)
            * 2 ^ ulpExp 53 (-1074) (x + 1 / 2) := by
        have := mul_zpow_div_zpow 1 (-2) _ hu
        rw [one_mul] at this
        rw [← this, Int.cast_one, one_mul, div_mul_cancel₀ _ (two_zpow_pos _).ne', zpow_neg]
        norm_num
      have hq3 : (3 / 4 : ℚ)
          = ((3 * 2 ^ (-2 - ulpExp 53 (-1074) (x + 1 / 2)).toNat : ℤ) : ℚ)
            * 2 ^ ulpExp 53 (-1074) (x + 1 / 2) := by
        rw [Int.cast_mul, mul_assoc, ← hq]; norm_num
      unfold to_double
      constructor
      · have := le_roundTo 53 (-1074) (x + 1 / 2) _ (by rw [← hq]; exact hy.1)
        rw [← hq] at this
        exact this
      · have := roundTo_le 53 (-1074) (x + 1 / 2) _ (by rw [← hq3]; exact hy.2)
        rw [← hq3] at this
        exact this

/-- The conversion to `int` of the `double` sum `x + 0.5` truncates the exact sum. -/
lemma truncate_to_double_half_add (x : ℚ) (hx : isFloat x) (hb : |x| < 2 ^ 51) :
    truncate (to_double (x + 1 / 2)) = truncate (x + 1 / 2) := by
  rcases half_add_exact_or_small x hx hb with h | ⟨⟨h1, h2⟩, h3, h4⟩
  · rw [h]
  · rw [truncate_eq_zero _ (by linarith) (by linarith),
      truncate_eq_zero _ (by linarith) (by linarith)]

/-! ## Loops that assign element by element -/

/-- A loop whose iteration `i` stores `g (source i) (target i)` in `target i`
leaves the source as it is and changes exactly the elements below the count. -/
lemma for_loop_spec {α β : Type} (body : ℕ → Bufs α β → Bufs α β) (g : α → β → β)
    (hbody : ∀ i m, body i m
      = ⟨m.source, Function.update m.target i (g (m.source i) (m.target i))⟩)
    (src : ℕ → α) (tgt : ℕ → β) (n : ℤ) :
    for_loop n body ⟨src, tgt⟩
      = ⟨src, fun j => if (j : ℤ) < n then g (src j) (tgt j) else tgt j⟩ := by
  have key : ∀ k : ℕ, (List.range k).foldl (fun st i => body i st) ⟨src, tgt⟩
      = ⟨src, fun j => if j < k then g (src j) (tgt j) else tgt j⟩ := by
    intro k
    induction k with
    | zero => simp
    | succ k ih =>
      rw [List.range_succ, List.foldl_append, ih]
      simp only [List.foldl_cons, List.foldl_nil, hbody]
      congr 1
      funext j
      by_cases hj : j = k
      · subst hj; simp
      · rw [Function.update_noteq hj]
        by_cases h1 : j < k
        · simp [h1, Nat.lt_succ_of_lt h1]
        · have : ¬ j < k + 1 := by omega
          simp [h1, this]
  unfold for_loop
  rw [key]
  congr 1
  funext j
  simp only [Int.lt_toNat]

/-- The same for a loop whose iterations can be undefined: when every iteration
below the count is defined, the loop is defined. -/
lemma for_loop_ub_spec {α β : Type} (body : ℕ → Bufs α β → Option (Bufs α β))
    (g : α → β → Option β)
    (hbody : ∀ i m, body i m
      = (g (m.source i) (m.target i)).map fun v => ⟨m.source, Function.update m.target i v⟩)
    (src : ℕ → α) (tgt : ℕ → β) (v : ℕ → β) (n : ℤ)
    (h : ∀ j : ℕ, (j : ℤ) < n → g (src j) (tgt j) = some (v j)) :
    for_loop_ub n body ⟨src, tgt⟩
      = some ⟨src, fun j => if (j : ℤ) < n then v j else tgt j⟩ := by
  have key : ∀ k : ℕ, (∀ j, j < k → g (src j) (tgt j) = some (v j)) →
      (List.range k).foldlM (fun st i => body i st) ⟨src, tgt⟩
        = some ⟨src, fun j => if j < k then v j else tgt j⟩ := by
    intro k
    induction k with
    | zero => intro _; simp
    | succ k ih =>
      intro hk
      rw [List.range_succ, List.foldlM_append, ih (fun j hj => hk j (Nat.lt_succ_of_lt hj))]
      simp only [List.foldlM_cons, List.foldlM_nil, hbody, Option.some_bind,
        lt_self_iff_false, if_false, hk k (Nat.lt_succ_self k), Option.map_some',
        Option.bind_eq_bind]
      simp only [Option.pure_def, Option.bind_some, Option.some.injEq]
      congr 1
      funext j
      by_cases hj : j = k
      · subst hj; simp
      · rw [Function.update_noteq hj]
        by_cases h1 : j < k
        · simp [h1, Nat.lt_succ_of_lt h1]
        · have : ¬ j < k + 1 := by omega
          simp [h1, this]
  unfold for_loop_ub
  rw [key n.toNat (fun j hj => h j (Int.lt_toNat.mp hj))]
  congr 2
  funext j
  simp only [Int.lt_toNat]

/-! ## Properties of the conversions -/

/-- The logarithm to base two of a positive rational, from a power-of-two bracket. -/
lemma int_log_two_eq (r : ℚ) (k : ℤ) (h1 : 2 ^ k ≤ r) (h2 : r < 2 ^ (k + 1)) :
    Int.log 2 r = k := by
  have hr : 0 < r := lt_of_lt_of_le (two_zpow_pos k) h1
  have a := (Int.zpow_le_iff_le_log (by norm_num : 1 < 2) hr).mp (by exact_mod_cast h1)
  have b := (Int.lt_zpow_iff_log_lt (by norm_num : 1 < 2) hr).mp (by exact_mod_cast h2)
  omega

/-- Rounding is idempotent. -/
lemma roundTo_roundTo (p : ℕ) (hp : 1 ≤ p) (emin : ℤ) (x : ℚ) :
    roundTo p emin (roundTo p emin x) = roundTo p emin x := by
  obtain ⟨m, e, hm, he, hrep⟩ := roundTo_rep p emin x
  rw [hrep]
  exact roundTo_of_rep_le p hp emin m e hm he

/-- The result of a rounding to `float` that does not exceed `FLT_MAX` is a
`float`. -/
lemma isFloat_to_float (x : ℚ) (h : |to_float x| ≤ FLT_MAX) : isFloat (to_float x) :=
  ⟨roundTo_roundTo 24 (by norm_num) (-149) x, h⟩

/-- A value `m * 2 ^ e` with `|m| < 2 ^ 24` and `-149 ≤ e ≤ 104` is a `float`. -/
lemma isFloat_of_rep (m e : ℤ) (hm : |m| < 2 ^ 24) (he : -149 ≤ e) (he2 : e ≤ 104) :
    isFloat ((m : ℚ) * 2 ^ e) := by
  refine ⟨roundTo_of_rep 24 (-149) m e hm he, ?_⟩
  rw [FLT_MAX_eq, abs_mul, abs_of_pos (two_zpow_pos e)]
  have h1 : |(m : ℚ)| ≤ ((2 ^ 24 - 1 : ℤ) : ℚ) := by
    have : |m| ≤ 2 ^ 24 - 1 := by omega
    exact_mod_cast this
  have h2 : (2 : ℚ) ^ e ≤ 2 ^ (104 : ℤ) := zpow_le_zpow_right₀ (by norm_num) he2
  exact mul_le_mul h1 h2 (two_zpow_pos e).le (by norm_num)

/-- An integer of magnitude at most `2 ^ 24` is a `float`. -/
lemma isFloat_intCast (k : ℤ) (hk : |k| ≤ 2 ^ 24) : isFloat (k : ℚ) := by
  have := roundTo_of_rep_le 24 (by norm_num) (-149) k 0 hk (by norm_num)
  rw [zpow_zero, mul_one] at this
  refine ⟨this, ?_⟩
  have h1 : |(k : ℚ)| ≤ 2 ^ 24 := by exact_mod_cast hk
  have h2 : (2 : ℚ) ^ 24 ≤ FLT_MAX := by
    unfold FLT_MAX
    norm_num
  exact h1.trans h2

lemma truncate_of_nonneg (x : ℚ) (h : 0 ≤ x) : truncate x = ⌊x⌋ := by
  unfold truncate; rw [if_pos h]

lemma truncate_of_neg (x : ℚ) (h : x < 0) : truncate x = ⌈x⌉ := by
  unfold truncate; rw [if_neg (not_le.mpr h)]

/-- A `float` whose half-up sum has an integral part in the range of `int` is small. -/
lemma abs_lt_of_isInt_truncate (x : ℚ) (hr : isInt (truncate (x + 1 / 2))) :
    |x| < 2 ^ 51 := by
  obtain ⟨h1, h2⟩ := hr
  unfold INT_MIN at h1
  unfold INT_MAX at h2
  have a := truncate_lt_add_one (x + 1 / 2)
  have b := truncate_sub_one_lt (x + 1 / 2)
  have h1' : (-2147483648 : ℚ) ≤ truncate (x + 1 / 2) := by exact_mod_cast h1
  have h2' : (truncate (x + 1 / 2) : ℚ) ≤ 2147483647 := by exact_mod_cast h2
  rw [abs_lt]
  constructor
  · norm_num; linarith
  · norm_num; linarith

/-- The value `(int)(*ptr+0.5)` for a `float` element: the integral part of the
exact sum, provided it is a value of `int`. -/
lemma cast_int_half_add (x : ℚ) (hx : isFloat x) (hr : isInt (truncate (x + 1 / 2))) :
    cast_int (double_add (to_double x) (1 / 2)) = some (truncate (x + 1 / 2)) := by
  unfold double_add
  rw [to_double_of_isFloat x hx,
    ← truncate_to_double_half_add x hx (abs_lt_of_isInt_truncate x hr)] at *
  unfold cast_int
  rw [if_pos hr]

/-- What `write_array_int` computes on `float` elements in range. -/
lemma write_array_int_spec (ptr : ℕ → ℚ) (n : ℤ) (target : ℕ → ℤ)
    (h : ∀ i : ℕ, (i : ℤ) < n → isFloat (ptr i) ∧ isInt (truncate (ptr i + 1 / 2))) :
    write_array_int ptr n target
      = some ⟨ptr, fun j => if (j : ℤ) < n then truncate (ptr j + 1 / 2) else target j⟩ := by
  unfold write_array_int
  refine for_loop_ub_spec _ (fun s _ => cast_int (double_add (to_double s) (1 / 2))) ?_
    ptr target (fun j => truncate (ptr j + 1 / 2)) n ?_
  · intro i m
    beta_reduce
    generalize cast_int (double_add (to_double (m.source i)) (1 / 2)) = c
    cases c <;> rfl
  · intro j hj
    exact cast_int_half_add (ptr j) (h j hj).1 (h j hj).2

/-- What `subtract_array_int` computes on `float` elements in range when no
difference overflows. -/
lemma subtract_array_int_spec (ptr : ℕ → ℚ) (n : ℤ) (target : ℕ → ℤ)
    (h : ∀ i : ℕ, (i : ℤ) < n → isFloat (ptr i) ∧ isInt (truncate (ptr i + 1 / 2)) ∧
      isInt (target i - truncate (ptr i + 1 / 2))) :
    subtract_array_int ptr n target
      = some ⟨ptr, fun j =>
          if (j : ℤ) < n then target j - truncate (ptr j + 1 / 2) else target j⟩ := by
  unfold subtract_array_int
  refine for_loop_ub_spec _
    (fun s t => (cast_int (double_add (to_double s) (1 / 2))).bind fun v => int_sub t v) ?_
    ptr target (fun j => target j - truncate (ptr j + 1 / 2)) n ?_
  · intro i m
    beta_reduce
    generalize cast_int (double_add (to_double (m.source i)) (1 / 2)) = c
    cases c with
    | none => rfl
    | some v =>
      show (int_sub (m.target i) v >>= fun d => pure _) = Option.map _ (int_sub (m.target i) v)
      generalize int_sub (m.target i) v = d
      cases d <;> rfl
  · intro j hj
    obtain ⟨h1, h2, h3⟩ := h j hj
    simp only [cast_int_half_add (ptr j) h1 h2, Option.some_bind, int_sub, if_pos h3]

/-- The `float` nearest to 1.2. -/
lemma to_float_six_fifths : to_float (6 / 5) = 5033165 / 4194304 := by
  have hl : Int.log 2 |(6 / 5 : ℚ)| = 0 := by
    apply int_log_two_eq <;> norm_num [abs_of_pos]
  unfold to_float roundTo ulpExp
  rw [hl]
  norm_num [roundHalfEven]

/-- The `float` nearest to 2.9. -/
lemma to_float_twentynine_tenths : to_float (29 / 10) = 6081741 / 2097152 := by
  have hl : Int.log 2 |(29 / 10 : ℚ)| = 1 := by
    apply int_log_two_eq <;> norm_num [abs_of_pos]
  unfold to_float roundTo ulpExp
  rw [hl]
  norm_num [roundHalfEven]

/-- A rational of magnitude at most `2 ^ 24` is in the range of `float`. -/
lemma small_le_FLT_MAX (x : ℚ) (h : |x| ≤ 2 ^ 24) : |x| ≤ FLT_MAX := by
  have h2 : (2 : ℚ) ^ 24 ≤ FLT_MAX := by
    unfold FLT_MAX
    norm_num
  exact h.trans h2

/-- The least finite `float` is a `float`. -/
lemma isFloat_neg_FLT_MAX : isFloat (-FLT_MAX) := by
  have h := isFloat_of_rep (-(2 ^ 24 - 1)) 104 (by norm_num) (by norm_num) (by norm_num)
  rw [Int.cast_neg, neg_mul, ← FLT_MAX_eq] at h
  exact h

/-- Twice the largest finite `float` has 24 significant bits: rounding keeps it. -/
lemma to_float_two_FLT_MAX : to_float (FLT_MAX + FLT_MAX) = FLT_MAX + FLT_MAX := by
  have e : FLT_MAX + FLT_MAX = ((2 ^ 24 - 1 : ℤ) : ℚ) * 2 ^ (105 : ℤ) := by
    rw [FLT_MAX_eq]
    norm_num
  rw [e]
  unfold to_float
  exact roundTo_of_rep 24 (-149) _ 105 (by norm_num) (by norm_num)

/-- The sum of the largest finite `float` with itself overflows. -/
lemma float_result_two_FLT_MAX : float_result (FLT_MAX + FLT_MAX) = FVal.pinf := by
  unfold float_result
  rw [to_float_two_FLT_MAX, if_pos (by linarith [FLT_MAX_pos])]

/-- The value 5/2 is a `float`. -/
lemma isFloat_five_halves : isFloat (5 / 2) := by
  have h := isFloat_of_rep 5 (-1) (by norm_num) (by norm_num) (by norm_num)
  have e : ((5 : ℤ) : ℚ) * 2 ^ (-1 : ℤ) = 5 / 2 := by norm_num
  rw [e] at h
  exact h

/-- The value -5/4 is a `float`. -/
lemma isFloat_neg_five_quarters : isFloat (-5 / 4) := by
  have h := isFloat_of_rep (-5) (-2) (by norm_num) (by norm_num) (by norm_num)
  have e : ((-5 : ℤ) : ℚ) * 2 ^ (-2 : ℤ) = -5 / 4 := by norm_num
  rw [e] at h
  exact h

/-- The value 3/2 is a `float`. -/
lemma isFloat_three_halves : isFloat (3 / 2) := by
  have h := isFloat_of_rep 3 (-1) (by norm_num) (by norm_num) (by norm_num)
  have e : ((3 : ℤ) : ℚ) * 2 ^ (-1 : ℤ) = 3 / 2 := by norm_num
  rw [e] at h
  exact h

/-- The value -3/2 is a `float`. -/
lemma isFloat_neg_three_halves : isFloat (-3 / 2) := by
  have h := isFloat_of_rep (-3) (-1) (by norm_num) (by norm_num) (by norm_num)
  have e : ((-3 : ℤ) : ℚ) * 2 ^ (-1 : ℤ) = -3 / 2 := by norm_num
  rw [e] at h
  exact h

/-- The integral part of 1.5 + 0.5 is 2. -/
lemma truncate_two : truncate ((3 / 2 : ℚ) + 1 / 2) = 2 := by
  norm_num [truncate]

/-- The integral part of -1.25 + 0.5 is 0. -/
lemma truncate_neg_three_quarters : truncate ((-5 / 4 : ℚ) + 1 / 2) = 0 := by
  norm_num [truncate]

/-! ## Properties of the array writers, subtractors and converters -/

/-- C6, refuted as stated: on the in-range canonical value -1.25 the INT writer
stores 0, while floor(-1.25 + 0.5) is -1. -/
theorem write_array_int_floor_counterexample :
    isFloat (-5 / 4) ∧ isInt (truncate ((-5 / 4 : ℚ) + 1 / 2)) ∧
    ∃ m, write_array_int (fun _ => -5 / 4) 1 (fun _ => 7) = some m ∧
      m.target 0 = 0 ∧ ⌊(-5 / 4 : ℚ) + 1 / 2⌋ = -1 ∧
      m.target 0 ≠ ⌊(-5 / 4 : ℚ) + 1 / 2⌋ := by
  have ht := truncate_neg_three_quarters
  have hfl : ⌊(-5 / 4 : ℚ) + 1 / 2⌋ = -1 := by norm_num
  have hr : isInt (truncate ((-5 / 4 : ℚ) + 1 / 2)) := by rw [ht]; decide
  refine ⟨isFloat_neg_five_quarters, hr, _,
    write_array_int_spec (fun _ => -5 / 4) 1 (fun _ => 7)
      (fun i _ => ⟨isFloat_neg_five_quarters, hr⟩), ?_, hfl, ?_⟩
  · simp only [Nat.cast_zero, zero_lt_one, if_true, ht]
  · simp only [Nat.cast_zero, zero_lt_one, if_true, ht, hfl]
    decide

/-- C6, amended: for every canonical array of `float` values and every count n,
when the integral part of value + 0.5 is a value of `int`, `write_array_int`
stores in each of the first n destination elements floor(value + 0.5) if
value ≥ -0.5, and ceil(value + 0.5) if value < -0.5. -/
theorem write_array_int_floor_of_ge (ptr : ℕ → ℚ) (n : ℤ) (target : ℕ → ℤ)
    (h : ∀ i : ℕ, (i : ℤ) < n → isFloat (ptr i) ∧ isInt (truncate (ptr i + 1 / 2))) :
    ∃ m, write_array_int ptr n target = some m ∧
      ∀ i : ℕ, (i : ℤ) < n →
        (-1 / 2 ≤ ptr i → m.target i = ⌊ptr i + 1 / 2⌋) ∧
        (ptr i < -1 / 2 → m.target i = ⌈ptr i + 1 / 2⌉) := by
  refine ⟨_, write_array_int_spec ptr n target h, ?_⟩
  intro i hi
  simp only [hi, if_true]
  constructor
  · intro hge
    exact truncate_of_nonneg _ (by linarith)
  · intro hlt
    exact truncate_of_neg _ (by linarith)

/-- Witness of the amended C6: the canonical value -1.25, one element. -/
theorem write_array_int_floor_of_ge_witness :
    (∀ i : ℕ, (i : ℤ) < 1 →
      isFloat (-5 / 4) ∧ isInt (truncate ((-5 / 4 : ℚ) + 1 / 2))) ∧
    ∃ m, write_array_int (fun _ => -5 / 4) 1 (fun _ => 7) = some m ∧
      ∀ i : ℕ, (i : ℤ) < 1 →
        (-1 / 2 ≤ (-5 / 4 : ℚ) → m.target i = ⌊(-5 / 4 : ℚ) + 1 / 2⌋) ∧
        ((-5 / 4 : ℚ) < -1 / 2 → m.target i = ⌈(-5 / 4 : ℚ) + 1 / 2⌉) :=
  have hyp : ∀ i : ℕ, (i : ℤ) < 1 →
      isFloat (-5 / 4) ∧ isInt (truncate ((-5 / 4 : ℚ) + 1 / 2)) :=
    fun _ _ => ⟨isFloat_neg_five_quarters, by rw [truncate_neg_three_quarters]; decide⟩
  ⟨hyp, write_array_int_floor_of_ge (fun _ => -5 / 4) 1 (fun _ => 7) hyp⟩

/-- The elements of the rounding example are `float`s with integral parts of
value + 0.5 equal to 1, 2, 3, -1. -/
lemma rounding_example_values :
    (isFloat (rounding_example 0) ∧ truncate (rounding_example 0 + 1 / 2) = 1) ∧
    (isFloat (rounding_example 1) ∧ truncate (rounding_example 1 + 1 / 2) = 2) ∧
    (isFloat (rounding_example 2) ∧ truncate (rounding_example 2 + 1 / 2) = 3) ∧
    (isFloat (rounding_example 3) ∧ truncate (rounding_example 3 + 1 / 2) = -1) := by
  have e0 : rounding_example 0 = to_float (6 / 5) := rfl
  have e1 : rounding_example 1 = 3 / 2 := rfl
  have e2 : rounding_example 2 = to_float (29 / 10) := rfl
  have e3 : rounding_example 3 = -3 / 2 := rfl
  rw [e0, e1, e2, e3]
  have b0 : |to_float (6 / 5)| ≤ FLT_MAX := by
    rw [to_float_six_fifths]
    exact small_le_FLT_MAX _ (by rw [abs_le]; constructor <;> norm_num)
  have b2 : |to_float (29 / 10)| ≤ FLT_MAX := by
    rw [to_float_twentynine_tenths]
    exact small_le_FLT_MAX _ (by rw [abs_le]; constructor <;> norm_num)
  refine ⟨⟨isFloat_to_float _ b0, ?_⟩, ⟨isFloat_three_halves, ?_⟩,
    ⟨isFloat_to_float _ b2, ?_⟩, ⟨isFloat_neg_three_halves, ?_⟩⟩
  · rw [to_float_six_fifths]; norm_num [truncate]
  · norm_num [truncate]
  · rw [to_float_twentynine_tenths]; norm_num [truncate]
  · have e : (-3 / 2 : ℚ) + 1 / 2 = ((-1 : ℤ) : ℚ) := by norm_num
    rw [e, truncate_of_neg _ (by norm_num), Int.ceil_intCast]

/-- The first four elements of the rounding example are in range for the INT
writer. -/
lemma rounding_example_in_range (i : ℕ) (hi : (i : ℤ) < 4) :
    isFloat (rounding_example i) ∧ isInt (truncate (rounding_example i + 1 / 2)) := by
  obtain ⟨⟨f0, t0⟩, ⟨f1, t1⟩, ⟨f2, t2⟩, ⟨f3, t3⟩⟩ := rounding_example_values
  have hi' : i < 4 := by omega
  interval_cases i
  · exact ⟨f0, by rw [t0]; decide⟩
  · exact ⟨f1, by rw [t1]; decide⟩
  · exact ⟨f2, by rw [t2]; decide⟩
  · exact ⟨f3, by rw [t3]; decide⟩

/-- C7: for every canonical array of `float` values in range and every count n,
`write_array_int` stores in destination element i < n the value obtained by
adding one-half and truncating toward zero. It is neither round-half-to-even nor
round-half-away-from-zero on negative inputs: -1.5 is written as -1, where both
of these roundings give -2; and writing [1.2, 1.5, 2.9, -1.5] yields
[1, 2, 3, -1]. -/
theorem write_array_int_truncates (ptr : ℕ → ℚ) (n : ℤ) (target : ℕ → ℤ)
    (h : ∀ i : ℕ, (i : ℤ) < n → isFloat (ptr i) ∧ isInt (truncate (ptr i + 1 / 2))) :
    (∃ m, write_array_int ptr n target = some m ∧
      ∀ i : ℕ, (i : ℤ) < n → m.target i = truncate (ptr i + 1 / 2)) ∧
    ((∃ m, write_array_int (fun _ => -3 / 2) 1 target = some m ∧ m.target 0 = -1) ∧
      roundHalfEven (-3 / 2) = -2 ∧ roundHalfAway (-3 / 2) = -2) ∧
    (∃ m, write_array_int rounding_example 4 target = some m ∧
      m.target 0 = 1 ∧ m.target 1 = 2 ∧ m.target 2 = 3 ∧ m.target 3 = -1) := by
  obtain ⟨⟨f0, t0⟩, ⟨f1, t1⟩, ⟨f2, t2⟩, ⟨f3, t3⟩⟩ := rounding_example_values
  have e3 : rounding_example 3 = -3 / 2 := rfl
  rw [e3] at t3
  refine ⟨⟨_, write_array_int_spec ptr n target h, ?_⟩, ⟨⟨_, write_array_int_spec
    (fun _ => -3 / 2) 1 target (fun _ _ => ⟨isFloat_neg_three_halves, by rw [t3]; decide⟩),
    ?_⟩, ?_, ?_⟩, ⟨_, write_array_int_spec rounding_example 4 target
    rounding_example_in_range, ?_, ?_, ?_, ?_⟩⟩
  · intro i hi
    simp only [hi, if_true]
  · simp only [Nat.cast_zero, zero_lt_one, if_true, t3]
  · norm_num [roundHalfEven]
  · have e : (-3 / 2 : ℚ) - 1 / 2 = ((-2 : ℤ) : ℚ) := by norm_num
    unfold roundHalfAway
    rw [if_neg (by norm_num), e, Int.ceil_intCast]
  · simp only [Nat.cast_zero, Nat.ofNat_pos, if_true, t0]
  · simp only [Nat.cast_one, Nat.one_lt_ofNat, if_true, t1]
  · have : ((2 : ℕ) : ℤ) < 4 := by norm_num
    simp only [this, if_true, t2]
  · have : ((3 : ℕ) : ℤ) < 4 := by norm_num
    simp only [this, if_true, e3, t3]

/-- Witness of C7: the rounding example, four elements. -/
theorem write_array_int_truncates_witness :
    (∀ i : ℕ, (i : ℤ) < 4 →
      isFloat (rounding_example i) ∧ isInt (truncate (rounding_example i + 1 / 2))) ∧
    ∃ m, write_array_int rounding_example 4 (fun _ => 0) = some m ∧
      ∀ i : ℕ, (i : ℤ) < 4 → m.target i = truncate (rounding_example i + 1 / 2) :=
  ⟨rounding_example_in_range,
    (write_array_int_truncates rounding_example 4 (fun _ => 0) rounding_example_in_range).1⟩

/-- C8: for every canonical array v of finite `float` values, raw buffer t and
count n, the subtract functions update each element i < n in place and leave the
elements at index ≥ n unchanged. `subtract_array_int` sets t[i] to
t[i] - trunc(v[i] + 0.5) (add one-half, truncate toward zero, as the INT writer;
provided the cast and the difference stay in the range of `int`);
`subtract_array_flt` and `subtract_array_dbl` set t[i] to the difference
t[i] - v[i] of the destination type, with no add-one-half step: the exact
difference whenever the destination type represents it, the rounded difference
while that is finite, and the infinity of its sign when it overflows. -/
theorem subtract_arrays_elementwise (v : ℕ → ℚ) (n : ℤ) (ti : ℕ → ℤ) (tf td : ℕ → FVal)
    (hv : ∀ i : ℕ, (i : ℤ) < n → isFloat (v i)) :
    ((∀ i : ℕ, (i : ℤ) < n →
        isInt (truncate (v i + 1 / 2)) ∧ isInt (ti i - truncate (v i + 1 / 2))) →
      ∃ m, subtract_array_int v n ti = some m ∧ m.source = v ∧
        ∀ j : ℕ, m.target j = if (j : ℤ) < n then ti j - truncate (v j + 1 / 2) else ti j) ∧
    ((subtract_array_flt v n tf).source = v ∧
      (∀ j : ℕ, (subtract_array_flt v n tf).target j
        = if (j : ℤ) < n then float_sub (tf j) (v j) else tf j) ∧
      (∀ (j : ℕ) (t : ℚ), (j : ℤ) < n → tf j = FVal.fin t →
        (isFloat (t - v j) → (subtract_array_flt v n tf).target j = FVal.fin (t - v j)) ∧
        (|to_float (t - v j)| ≤ FLT_MAX →
          (subtract_array_flt v n tf).target j = FVal.fin (to_float (t - v j))) ∧
        (FLT_MAX < to_float (t - v j) → (subtract_array_flt v n tf).target j = FVal.pinf) ∧
        (to_float (t - v j) < -FLT_MAX →
          (subtract_array_flt v n tf).target j = FVal.ninf))) ∧
    ((subtract_array_dbl v n td).source = v ∧
      (∀ j : ℕ, (subtract_array_dbl v n td).target j
        = if (j : ℤ) < n then double_sub (td j) (v j) else td j) ∧
      (∀ (j : ℕ) (t : ℚ), (j : ℤ) < n → td j = FVal.fin t →
        (isDouble (t - v j) → (subtract_array_dbl v n td).target j = FVal.fin (t - v j)) ∧
        (|to_double (t - v j)| ≤ DBL_MAX →
          (subtract_array_dbl v n td).target j = FVal.fin (to_double (t - v j))) ∧
        (DBL_MAX < to_double (t - v j) → (subtract_array_dbl v n td).target j = FVal.pinf) ∧
        (to_double (t - v j) < -DBL_MAX →
          (subtract_array_dbl v n td).target j = FVal.ninf))) := by
  have hflt : subtract_array_flt v n tf
      = ⟨v, fun j => if (j : ℤ) < n then float_sub (tf j) (v j) else tf j⟩ := by
    unfold subtract_array_flt
    exact for_loop_spec _ (fun s t => float_sub t s) (fun _ _ => rfl) v tf n
  have hdbl : subtract_array_dbl v n td
      = ⟨v, fun j => if (j : ℤ) < n then double_sub (td j) (to_double (v j)) else td j⟩ := by
    unfold subtract_array_dbl
    exact for_loop_spec _ (fun s t => double_sub t (to_double s)) (fun _ _ => rfl) v td n
  refine ⟨?_, ⟨?_, ?_, ?_⟩, ⟨?_, ?_, ?_⟩⟩
  · intro hr
    exact ⟨_, subtract_array_int_spec v n ti
      (fun i hi => ⟨hv i hi, (hr i hi).1, (hr i hi).2⟩), rfl, fun _ => rfl⟩
  · rw [hflt]
  · intro j; rw [hflt]
  · intro j t hj ht
    rw [hflt]
    simp only [hj, if_true, ht, float_sub]
    refine ⟨float_result_of_isFloat _, float_result_of_le _, ?_, ?_⟩
    · intro h
      unfold float_result
      rw [if_pos h]
    · intro h
      unfold float_result
      rw [if_neg (by linarith [FLT_MAX_pos]), if_pos h]
  · rw [hdbl]
  · intro j
    rw [hdbl]
    by_cases hj : (j : ℤ) < n
    · simp only [hj, if_true, to_double_of_isFloat (v j) (hv j hj)]
    · simp only [hj, if_false]
  · intro j t hj ht
    rw [hdbl]
    simp only [hj, if_true, ht, double_sub, to_double_of_isFloat (v j) (hv j hj)]
    refine ⟨double_result_of_isDouble _, double_result_of_le _, ?_, ?_⟩
    · intro h
      unfold double_result
      rw [if_pos h]
    · intro h
      have hpos : 0 < DBL_MAX := lt_of_lt_of_le FLT_MAX_pos FLT_MAX_le_DBL_MAX
      unfold double_result
      rw [if_neg (by linarith), if_pos h]

/-- Witness of C8: the canonical value 1.5 subtracted from the INT value 10 and
from the FLOAT value 4; and the canonical value -FLT_MAX subtracted from the
FLOAT value FLT_MAX, which overflows. -/
theorem subtract_arrays_elementwise_witness :
    (∀ i : ℕ, (i : ℤ) < 1 → isFloat (3 / 2)) ∧
    (∃ m, subtract_array_int (fun _ => 3 / 2) 1 (fun _ => 10) = some m ∧
      m.source = (fun _ => 3 / 2) ∧
      ∀ j : ℕ, m.target j
        = if (j : ℤ) < 1 then 10 - truncate ((3 / 2 : ℚ) + 1 / 2) else 10) ∧
    (subtract_array_flt (fun _ => 3 / 2) 1 (fun _ => FVal.fin 4)).target 0
      = FVal.fin (4 - 3 / 2) ∧
    (subtract_array_flt (fun _ => -FLT_MAX) 1 (fun _ => FVal.fin FLT_MAX)).target 0
      = FVal.pinf :=
  ⟨fun _ _ => isFloat_three_halves,
    (subtract_arrays_elementwise (fun _ => 3 / 2) 1 (fun _ => 10) (fun _ => FVal.fin 4)
      (fun _ => FVal.fin 4) (fun _ _ => isFloat_three_halves)).1
      (fun _ _ => by rw [truncate_two]; exact ⟨by decide, by decide⟩),
    ((subtract_arrays_elementwise (fun _ => 3 / 2) 1 (fun _ => 10) (fun _ => FVal.fin 4)
      (fun _ => FVal.fin 4) (fun _ _ => isFloat_three_halves)).2.1.2.2 0 4 (by norm_num)
      rfl).1 (by
        have e : (4 : ℚ) - 3 / 2 = 5 / 2 := by norm_num
        rw [e]
        exact isFloat_five_halves),
    ((subtract_arrays_elementwise (fun _ => -FLT_MAX) 1 (fun _ => 10)
      (fun _ => FVal.fin FLT_MAX) (fun _ => FVal.fin 4)
      (fun _ _ => isFloat_neg_FLT_MAX)).2.1.2.2 0 FLT_MAX (by norm_num) rfl).2.2.1 (by
        rw [sub_neg_eq_add, to_float_two_FLT_MAX]
        linarith [FLT_MAX_pos])⟩

/-- C10: for every canonical array of `float` values and every count n,
`write_array_dbl` stores in destination element i < n exactly the numeric value
of canonical element i, and leaves the destination elements at index ≥ n
unchanged. -/
theorem write_array_dbl_exact (ptr : ℕ → ℚ) (n : ℤ) (target : ℕ → ℚ)
    (h : ∀ i : ℕ, (i : ℤ) < n → isFloat (ptr i)) :
    (write_array_dbl ptr n target).source = ptr ∧
    ∀ j : ℕ, (write_array_dbl ptr n target).target j
      = if (j : ℤ) < n then ptr j else target j := by
  have hw : write_array_dbl ptr n target
      = ⟨ptr, fun j => if (j : ℤ) < n then to_double (ptr j) else target j⟩ := by
    unfold write_array_dbl
    exact for_loop_spec _ (fun s _ => to_double s) (fun _ _ => rfl) ptr target n
  rw [hw]
  refine ⟨rfl, fun j => ?_⟩
  by_cases hj : (j : ℤ) < n
  · simp only [hj, if_true, to_double_of_isFloat (ptr j) (h j hj)]
  · simp only [hj, if_false]

/-- Witness of C10: the rounding example, four elements. -/
theorem write_array_dbl_exact_witness :
    (∀ i : ℕ, (i : ℤ) < 4 → isFloat (rounding_example i)) ∧
    ∀ j : ℕ, (write_array_dbl rounding_example 4 (fun _ => 9)).target j
      = if (j : ℤ) < 4 then rounding_example j else 9 :=
  ⟨fun i hi => (rounding_example_in_range i hi).1,
    (write_array_dbl_exact rounding_example 4 (fun _ => 9)
      (fun i hi => (rounding_example_in_range i hi).1)).2⟩

/-! ## Properties of the detail slot and of the status messages -/

/-- The long text has 512 characters. -/
lemma long_text_length : long_text.length = 512 := by
  show (List.replicate 512 'a').length = 512
  exact List.length_replicate 512 'a'

/-- The first `k` characters of a text with at least `k` characters are `k`
characters. -/
lemma first_chars_length (k : ℕ) (text : String) (h : k ≤ text.length) :
    (first_chars k text).length = k := by
  simp only [first_chars, String.length, List.length_take]
  exact min_eq_left h

/-- A text that does not fit violates the runtime constraint of `strcpy_s`, which
leaves the empty string. -/
lemma strcpy_s_too_long (destsz : ℕ) (src : String) (h : destsz ≤ src.length) :
    strcpy_s destsz src = ⟨"", true⟩ := by
  unfold strcpy_s; rw [if_neg (by omega)]

/-- Reading the slot after a write of a text that fits returns the text and
clears the slot. -/
lemma get_after_put (x : String) (hx : x.length ≤ 511) (s : SepState) :
    sep_get_errdetail (put_errdetail x s) = (x, ⟨""⟩) := by
  have h : x.length < DETAILSIZE := by unfold DETAILSIZE; omega
  simp only [put_errdetail, sep_get_errdetail, strcpy_s_fits _ _ h]

/-- Reading the empty slot returns the empty string. -/
lemma get_empty : sep_get_errdetail ⟨""⟩ = ("", ⟨""⟩) := by
  have h : "".length < DETAILSIZE := by decide
  simp only [sep_get_errdetail, strcpy_s_fits _ _ h]

/-- C11: read-once law. For every text x of at most 511 characters, after
`put_errdetail(x)` the first `sep_get_errdetail` returns exactly x and a second
one with no write in between returns the empty string (in particular for
x = "x"); a later `put_errdetail(y)` replaces rather than appends: the next read
returns exactly y, whether or not x was read before. -/
theorem errdetail_read_once (x y : String) (hx : x.length ≤ 511) (hy : y.length ≤ 511)
    (s : SepState) :
    (sep_get_errdetail (put_errdetail x s)).1 = x ∧
    (sep_get_errdetail (sep_get_errdetail (put_errdetail x s)).2).1 = "" ∧
    (sep_get_errdetail (put_errdetail y (put_errdetail x s))).1 = y ∧
    (sep_get_errdetail (put_errdetail y (sep_get_errdetail (put_errdetail x s)).2)).1 = y ∧
    ((sep_get_errdetail (put_errdetail "x" s)).1 = "x" ∧
      (sep_get_errdetail (sep_get_errdetail (put_errdetail "x" s)).2).1 = "") := by
  have hx1 : "x".length ≤ 511 := by decide
  rw [get_after_put x hx, get_after_put y hy, get_after_put y hy, get_after_put "x" hx1,
    get_empty]
  exact ⟨rfl, rfl, rfl, rfl, rfl, rfl⟩

/-- Witness of C11: the texts "x" and "y" on a slot that held another text. -/
theorem errdetail_read_once_witness :
    "x".length ≤ 511 ∧ "y".length ≤ 511 ∧
    (sep_get_errdetail (put_errdetail "x" ⟨"old"⟩)).1 = "x" ∧
    (sep_get_errdetail (sep_get_errdetail (put_errdetail "x" ⟨"old"⟩)).2).1 = "" ∧
    (sep_get_errdetail (put_errdetail "y" (put_errdetail "x" ⟨"old"⟩))).1 = "y" :=
  ⟨by decide, by decide,
    (errdetail_read_once "x" "y" (by decide) (by decide) ⟨"old"⟩).1,
    (errdetail_read_once "x" "y" (by decide) (by decide) ⟨"old"⟩).2.1,
    (errdetail_read_once "x" "y" (by decide) (by decide) ⟨"old"⟩).2.2.1⟩

/-- The call `put_errdetail` of a text longer than 511 characters, for each
behaviour of the constraint handler: the program ends, or the slot is empty. -/
lemma put_errdetail_under_too_long (text : String) (h : 511 < text.length) (s : SepState) :
    (strcpy_s DETAILSIZE text).violation = true ∧
    put_errdetail_under ConstraintHandler.terminates text s = none ∧
    put_errdetail_under ConstraintHandler.returns text s = some ⟨""⟩ := by
  have hv := strcpy_s_too_long DETAILSIZE text (by unfold DETAILSIZE; omega)
  have hput : put_errdetail text s = ⟨""⟩ := by
    simp only [put_errdetail, hv]
  unfold put_errdetail_under
  rw [hput, hv]
  exact ⟨rfl, rfl, rfl⟩

/-- C12, refuted as stated: `put_errdetail` of a text of 512 characters stores no
truncated copy. The copy is a runtime-constraint violation of `strcpy_s`; with a
constraint handler that ends the program there is no state after the call, and
with one that returns the slot is empty, it does not hold the first 511
characters of the text, and the next `sep_get_errdetail` returns the empty
string, not that prefix. -/
theorem put_errdetail_truncation_counterexample :
    511 < long_text.length ∧
    (first_chars 511 long_text).length = 511 ∧
    (strcpy_s DETAILSIZE long_text).violation = true ∧
    put_errdetail_under ConstraintHandler.terminates long_text ⟨"old"⟩ = none ∧
    put_errdetail_under ConstraintHandler.returns long_text ⟨"old"⟩ = some ⟨""⟩ ∧
    (∀ c : ConstraintHandler, put_errdetail_under c long_text ⟨"old"⟩
      ≠ some ⟨first_chars 511 long_text⟩) ∧
    (sep_get_errdetail ⟨""⟩).1 ≠ first_chars 511 long_text := by
  have hl := long_text_length
  have hf := first_chars_length 511 long_text (by omega)
  obtain ⟨hv, ht, hr⟩ := put_errdetail_under_too_long long_text (by omega) ⟨"old"⟩
  have hne : "" ≠ first_chars 511 long_text := by
    intro h
    have := congrArg String.length h
    rw [hf] at this
    exact absurd this (by decide)
  refine ⟨by omega, hf, hv, ht, hr, ?_, ?_⟩
  · intro c
    cases c
    · rw [hr]
      intro h
      exact hne (congrArg SepState._errdetail_buffer (Option.some.inj h))
    · rw [ht]
      exact fun h => Option.noConfusion h
  · rw [get_empty]
    exact hne

/-- C12, amended: for every text longer than 511 characters the bounded copy in
`put_errdetail` is a runtime-constraint violation of `strcpy_s` and no truncated
copy is stored, whatever the constraint handler of the library does: when the
handler ends the program the call does not return; when the call returns, the
detail slot holds the empty string and the next `sep_get_errdetail` returns the
empty string. In neither case does the slot hold the first 511 characters. -/
theorem put_errdetail_too_long (text : String) (h : 511 < text.length) (s : SepState)
    (c : ConstraintHandler) :
    (strcpy_s DETAILSIZE text).violation = true ∧
    (c = ConstraintHandler.terminates → put_errdetail_under c text s = none) ∧
    (∀ s1 : SepState, put_errdetail_under c text s = some s1 →
      c = ConstraintHandler.returns ∧ s1._errdetail_buffer = "" ∧
      (sep_get_errdetail s1).1 = "") ∧
    put_errdetail_under c text s ≠ some ⟨first_chars 511 text⟩ := by
  obtain ⟨hv, ht, hr⟩ := put_errdetail_under_too_long text h s
  have hf := first_chars_length 511 text (by omega)
  have hne : "" ≠ first_chars 511 text := by
    intro h
    have := congrArg String.length h
    rw [hf] at this
    exact absurd this (by decide)
  refine ⟨hv, ?_, ?_, ?_⟩
  · intro hc
    rw [hc, ht]
  · intro s1 hs1
    cases c
    · rw [hr] at hs1
      rw [← Option.some.inj hs1, get_empty]
      exact ⟨rfl, rfl, rfl⟩
    · rw [ht] at hs1
      exact Option.noConfusion hs1
  · cases c
    · rw [hr]
      intro h
      exact hne (congrArg SepState._errdetail_buffer (Option.some.inj h))
    · rw [ht]
      exact fun h => Option.noConfusion h

/-- Witness of the amended C12: the text of 512 characters, with a handler that
returns and with one that ends the program. -/
theorem put_errdetail_too_long_witness :
    511 < long_text.length ∧
    (strcpy_s DETAILSIZE long_text).violation = true ∧
    put_errdetail_under ConstraintHandler.terminates long_text ⟨"old"⟩ = none ∧
    put_errdetail_under ConstraintHandler.returns long_text ⟨"old"⟩
      ≠ some ⟨first_chars 511 long_text⟩ :=
  ⟨by rw [long_text_length]; decide,
    (put_errdetail_too_long long_text (by rw [long_text_length]; decide) ⟨"old"⟩
      ConstraintHandler.returns).1,
    (put_errdetail_too_long long_text (by rw [long_text_length]; decide) ⟨"old"⟩
      ConstraintHandler.terminates).2.1 rfl,
    (put_errdetail_too_long long_text (by rw [long_text_length]; decide) ⟨"old"⟩
      ConstraintHandler.returns).2.2.2⟩

/-- The texts of `sep_get_errmsg` fit the 61 bytes of their copy. -/
lemma errmsg_texts_fit :
    (strcpy_s 61 "OK - no error").dest = "OK - no error" ∧
    (strcpy_s 61 "memory allocation").dest = "memory allocation" ∧
    (strcpy_s 61 "internal pixel buffer full").dest = "internal pixel buffer full" ∧
    (strcpy_s 61 "object deblending overflow").dest = "object deblending overflow" ∧
    (strcpy_s 61 "dtype not recognized/unsupported").dest
      = "dtype not recognized/unsupported" ∧
    (strcpy_s 61 "subpix value must be nonnegative").dest
      = "subpix value must be nonnegative" ∧
    (strcpy_s 61 "parameters do not describe ellipse").dest
      = "parameters do not describe ellipse" ∧
    (strcpy_s 61 "invalid aperture parameters").dest = "invalid aperture parameters" ∧
    (strcpy_s 61 "array line out of buffer").dest = "array line out of buffer" ∧
    (strcpy_s 61 "relative threshold but image has noise_type of NONE").dest
      = "relative threshold but image has noise_type of NONE" ∧
    (strcpy_s 61 "image has unknown noise_type").dest = "image has unknown noise_type" ∧
    (strcpy_s 61 unknown_error_message).dest = "unknown error status" := by
  refine ⟨?_, ?_, ?_, ?_, ?_, ?_, ?_, ?_, ?_, ?_, ?_, ?_⟩ <;> decide

/-- The message of each enumerated status code. -/
lemma errmsg_of_code (K : Consts) (hK : K.statusDistinct) :
    sep_get_errmsg K K.RETURN_OK = "OK - no error" ∧
    sep_get_errmsg K K.MEMORY_ALLOC_ERROR = "memory allocation" ∧
    sep_get_errmsg K K.PIXSTACK_FULL = "internal pixel buffer full" ∧
    sep_get_errmsg K K.DEBLEND_OVERFLOW = "object deblending overflow" ∧
    sep_get_errmsg K K.ILLEGAL_DTYPE = "dtype not recognized/unsupported" ∧
    sep_get_errmsg K K.ILLEGAL_SUBPIX = "subpix value must be nonnegative" ∧
    sep_get_errmsg K K.NON_ELLIPSE_PARAMS = "parameters do not describe ellipse" ∧
    sep_get_errmsg K K.ILLEGAL_APER_PARAMS = "invalid aperture parameters" ∧
    sep_get_errmsg K K.LINE_NOT_IN_BUF = "array line out of buffer" ∧
    sep_get_errmsg K K.RELTHRESH_NO_NOISE = "relative threshold but image has noise_type of NONE" ∧
    sep_get_errmsg K K.UNKNOWN_NOISE_TYPE = "image has unknown noise_type" := by
  unfold Consts.statusDistinct Consts.statusCodes at hK
  simp only [List.nodup_cons, List.mem_cons, List.mem_singleton, List.not_mem_nil, not_or,
    List.nodup_nil, and_true, not_false_eq_true, or_false] at hK
  obtain
    ⟨⟨h0_1, h0_2, h0_3, h0_4, h0_5, h0_6, h0_7, h0_8, h0_9, h0_10⟩, ⟨h1_2, h1_3, h1_4, h1_5,
      h1_6, h1_7, h1_8, h1_9, h1_10⟩, ⟨h2_3, h2_4, h2_5, h2_6, h2_7, h2_8, h2_9, h2_10⟩, ⟨h3_4,
      h3_5, h3_6, h3_7, h3_8, h3_9, h3_10⟩, ⟨h4_5, h4_6, h4_7, h4_8, h4_9, h4_10⟩, ⟨h5_6, h5_7,
      h5_8, h5_9, h5_10⟩, ⟨h6_7, h6_8, h6_9, h6_10⟩, ⟨h7_8, h7_9, h7_10⟩, ⟨h8_9, h8_10⟩, h9_10⟩ := hK
  obtain ⟨t0, t1, t2, t3, t4, t5, t6, t7, t8, t9, t10, _⟩ := errmsg_texts_fit
  refine ⟨?_, ?_, ?_, ?_, ?_, ?_, ?_, ?_, ?_, ?_, ?_⟩
  · unfold sep_get_errmsg
    rw [if_pos rfl]
    exact t0
  · unfold sep_get_errmsg
    rw [if_neg (fun h => h0_1 h.symm), if_pos rfl]
    exact t1
  · unfold sep_get_errmsg
    rw [if_neg (fun h => h0_2 h.symm), if_neg (fun h => h1_2 h.symm), if_pos rfl]
    exact t2
  · unfold sep_get_errmsg
    rw [if_neg (fun h => h0_3 h.symm), if_neg (fun h => h1_3 h.symm), if_neg (fun h => h2_3
      h.symm), if_pos rfl]
    exact t3
  · unfold sep_get_errmsg
    rw [if_neg (fun h => h0_4 h.symm), if_neg (fun h => h1_4 h.symm), if_neg (fun h => h2_4
      h.symm), if_neg (fun h => h3_4 h.symm), if_pos rfl]
    exact t4
  · unfold sep_get_errmsg
    rw [if_neg (fun h => h0_5 h.symm), if_neg (fun h => h1_5 h.symm), if_neg (fun h => h2_5
      h.symm), if_neg (fun h => h3_5 h.symm), if_neg (fun h => h4_5 h.symm), if_pos rfl]
    exact t5
  · unfold sep_get_errmsg
    rw [if_neg (fun h => h0_6 h.symm), if_neg (fun h => h1_6 h.symm), if_neg (fun h => h2_6
      h.symm), if_neg (fun h => h3_6 h.symm), if_neg (fun h => h4_6 h.symm), if_neg (fun h =>
      h5_6 h.symm), if_pos rfl]
    exact t6
  · unfold sep_get_errmsg
    rw [if_neg (fun h => h0_7 h.symm), if_neg (fun h => h1_7 h.symm), if_neg (fun h => h2_7
      h.symm), if_neg (fun h => h3_7 h.symm), if_neg (fun h => h4_7 h.symm), if_neg (fun h =>
      h5_7 h.symm), if_neg (fun h => h6_7 h.symm), if_pos rfl]
    exact t7
  · unfold sep_get_errmsg
    rw [if_neg (fun h => h0_8 h.symm), if_neg (fun h => h1_8 h.symm), if_neg (fun h => h2_8
      h.symm), if_neg (fun h => h3_8 h.symm), if_neg (fun h => h4_8 h.symm), if_neg (fun h =>
      h5_8 h.symm), if_neg (fun h => h6_8 h.symm), if_neg (fun h => h7_8 h.symm), if_pos rfl]
    exact t8
  · unfold sep_get_errmsg
    rw [if_neg (fun h => h0_9 h.symm), if_neg (fun h => h1_9 h.symm), if_neg (fun h => h2_9
      h.symm), if_neg (fun h => h3_9 h.symm), if_neg (fun h => h4_9 h.symm), if_neg (fun h =>
      h5_9 h.symm), if_neg (fun h => h6_9 h.symm), if_neg (fun h => h7_9 h.symm), if_neg (fun h
      => h8_9 h.symm), if_pos rfl]
    exact t9
  · unfold sep_get_errmsg
    rw [if_neg (fun h => h0_10 h.symm), if_neg (fun h => h1_10 h.symm), if_neg (fun h => h2_10
      h.symm), if_neg (fun h => h3_10 h.symm), if_neg (fun h => h4_10 h.symm), if_neg (fun h =>
      h5_10 h.symm), if_neg (fun h => h6_10 h.symm), if_neg (fun h => h7_10 h.symm), if_neg
      (fun h => h8_10 h.symm), if_neg (fun h => h9_10 h.symm), if_pos rfl]
    exact t10

/-- The message of a status that is none of the enumerated codes. -/
lemma errmsg_of_unknown (K : Consts) (status : ℤ) (h : ¬ K.isStatus status) :
    sep_get_errmsg K status = unknown_error_message := by
  unfold Consts.isStatus Consts.statusCodes at h
  simp only [List.mem_cons, List.mem_singleton, List.not_mem_nil, not_or, or_false] at h
  obtain ⟨h0, h1, h2, h3, h4, h5, h6, h7, h8, h9, h10⟩ := h
  unfold sep_get_errmsg
  rw [if_neg h0, if_neg h1, if_neg h2, if_neg h3, if_neg h4, if_neg h5, if_neg h6, if_neg h7,
    if_neg h8, if_neg h9, if_neg h10]
  exact errmsg_texts_fit.2.2.2.2.2.2.2.2.2.2.2

/-- The message of an enumerated status code is not the generic one, and is not
empty. -/
lemma errmsg_of_isStatus (K : Consts) (hK : K.statusDistinct) (status : ℤ)
    (h : K.isStatus status) :
    sep_get_errmsg K status ≠ unknown_error_message ∧ sep_get_errmsg K status ≠ "" := by
  obtain ⟨m0, m1, m2, m3, m4, m5, m6, m7, m8, m9, m10⟩ := errmsg_of_code K hK
  unfold Consts.isStatus Consts.statusCodes at h
  simp only [List.mem_cons, List.mem_singleton, List.not_mem_nil, or_false] at h
  rcases h with h | h | h | h | h | h | h | h | h | h | h <;> subst h
  · rw [m0]; decide
  · rw [m1]; decide
  · rw [m2]; decide
  · rw [m3]; decide
  · rw [m4]; decide
  · rw [m5]; decide
  · rw [m6]; decide
  · rw [m7]; decide
  · rw [m8]; decide
  · rw [m9]; decide
  · rw [m10]; decide

/-- C13: `sep_get_errmsg` is total: for every integer status it produces a
(non-empty) message; for every status that is not one of the eleven enumerated
codes the message is the generic "unknown error status", while each enumerated
code yields its own fixed message, different from the generic one. -/
theorem errmsg_total (K : Consts) (hK : K.statusDistinct) (status : ℤ) :
    sep_get_errmsg K status ≠ "" ∧
    (¬ K.isStatus status → sep_get_errmsg K status = "unknown error status") ∧
    (K.isStatus status → sep_get_errmsg K status ≠ "unknown error status") ∧
    (sep_get_errmsg K K.RETURN_OK = "OK - no error" ∧
      sep_get_errmsg K K.MEMORY_ALLOC_ERROR = "memory allocation" ∧
      sep_get_errmsg K K.PIXSTACK_FULL = "internal pixel buffer full" ∧
      sep_get_errmsg K K.DEBLEND_OVERFLOW = "object deblending overflow" ∧
      sep_get_errmsg K K.ILLEGAL_DTYPE = "dtype not recognized/unsupported" ∧
      sep_get_errmsg K K.ILLEGAL_SUBPIX = "subpix value must be nonnegative" ∧
      sep_get_errmsg K K.NON_ELLIPSE_PARAMS = "parameters do not describe ellipse" ∧
      sep_get_errmsg K K.ILLEGAL_APER_PARAMS = "invalid aperture parameters" ∧
      sep_get_errmsg K K.LINE_NOT_IN_BUF = "array line out of buffer" ∧
      sep_get_errmsg K K.RELTHRESH_NO_NOISE
        = "relative threshold but image has noise_type of NONE" ∧
      sep_get_errmsg K K.UNKNOWN_NOISE_TYPE = "image has unknown noise_type") := by
  refine ⟨?_, errmsg_of_unknown K status, fun h => (errmsg_of_isStatus K hK status h).1,
    errmsg_of_code K hK⟩
  by_cases h : K.isStatus status
  · exact (errmsg_of_isStatus K hK status h).2
  · rw [errmsg_of_unknown K status h]
    decide

/-- Witness of C13: the constants of the SEP headers, the unknown status 99. -/
theorem errmsg_total_witness :
    sepConsts.statusDistinct ∧
    (¬ sepConsts.isStatus 99 → sep_get_errmsg sepConsts 99 = "unknown error status") ∧
    sep_get_errmsg sepConsts 99 ≠ "" :=
  ⟨by decide, (errmsg_total sepConsts (by decide) 99).2.1,
    (errmsg_total sepConsts (by decide) 99).1⟩

/-- Every message of `sep_get_errmsg` is one of its twelve texts. -/
lemma errmsg_mem_texts (K : Consts) (status : ℤ) :
    sep_get_errmsg K status ∈ errmsg_texts := by
  obtain ⟨t0, t1, t2, t3, t4, t5, t6, t7, t8, t9, t10, t11⟩ := errmsg_texts_fit
  unfold sep_get_errmsg errmsg_texts
  by_cases h0 : status = K.RETURN_OK
  · rw [if_pos h0, t0]
    exact List.mem_cons_self _ _
  rw [if_neg h0]
  by_cases h1 : status = K.MEMORY_ALLOC_ERROR
  · rw [if_pos h1, t1]
    exact List.mem_cons_of_mem _ (List.mem_cons_self _ _)
  rw [if_neg h1]
  by_cases h2 : status = K.PIXSTACK_FULL
  · rw [if_pos h2, t2]
    exact List.mem_cons_of_mem _ (List.mem_cons_of_mem _ (List.mem_cons_self _ _))
  rw [if_neg h2]
  by_cases h3 : status = K.DEBLEND_OVERFLOW
  · rw [if_pos h3, t3]
    exact List.mem_cons_of_mem _ (List.mem_cons_of_mem _ (List.mem_cons_of_mem _
      (List.mem_cons_self _ _)))
  rw [if_neg h3]
  by_cases h4 : status = K.ILLEGAL_DTYPE
  · rw [if_pos h4, t4]
    exact List.mem_cons_of_mem _ (List.mem_cons_of_mem _ (List.mem_cons_of_mem _
      (List.mem_cons_of_mem _ (List.mem_cons_self _ _))))
  rw [if_neg h4]
  by_cases h5 : status = K.ILLEGAL_SUBPIX
  · rw [if_pos h5, t5]
    exact List.mem_cons_of_mem _ (List.mem_cons_of_mem _ (List.mem_cons_of_mem _
      (List.mem_cons_of_mem _ (List.mem_cons_of_mem _ (List.mem_cons_self _ _)))))
  rw [if_neg h5]
  by_cases h6 : status = K.NON_ELLIPSE_PARAMS
  · rw [if_pos h6, t6]
    exact List.mem_cons_of_mem _ (List.mem_cons_of_mem _ (List.mem_cons_of_mem _
      (List.mem_cons_of_mem _ (List.mem_cons_of_mem _ (List.mem_cons_of_mem _
      (List.mem_cons_self _ _))))))
  rw [if_neg h6]
  by_cases h7 : status = K.ILLEGAL_APER_PARAMS
  · rw [if_pos h7, t7]
    exact List.mem_cons_of_mem _ (List.mem_cons_of_mem _ (List.mem_cons_of_mem _
      (List.mem_cons_of_mem _ (List.mem_cons_of_mem _ (List.mem_cons_of_mem _
      (List.mem_cons_of_mem _ (List.mem_cons_self _ _)))))))
  rw [if_neg h7]
  by_cases h8 : status = K.LINE_NOT_IN_BUF
  · rw [if_pos h8, t8]
    exact List.mem_cons_of_mem _ (List.mem_cons_of_mem _ (List.mem_cons_of_mem _
      (List.mem_cons_of_mem _ (List.mem_cons_of_mem _ (List.mem_cons_of_mem _
      (List.mem_cons_of_mem _ (List.mem_cons_of_mem _ (List.mem_cons_self _ _))))))))
  rw [if_neg h8]
  by_cases h9 : status = K.RELTHRESH_NO_NOISE
  · rw [if_pos h9, t9]
    exact List.mem_cons_of_mem _ (List.mem_cons_of_mem _ (List.mem_cons_of_mem _
      (List.mem_cons_of_mem _ (List.mem_cons_of_mem _ (List.mem_cons_of_mem _
      (List.mem_cons_of_mem _ (List.mem_cons_of_mem _ (List.mem_cons_of_mem _
      (List.mem_cons_self _ _)))))))))
  rw [if_neg h9]
  by_cases h10 : status = K.UNKNOWN_NOISE_TYPE
  · rw [if_pos h10, t10]
    exact List.mem_cons_of_mem _ (List.mem_cons_of_mem _ (List.mem_cons_of_mem _
      (List.mem_cons_of_mem _ (List.mem_cons_of_mem _ (List.mem_cons_of_mem _
      (List.mem_cons_of_mem _ (List.mem_cons_of_mem _ (List.mem_cons_of_mem _
      (List.mem_cons_of_mem _ (List.mem_cons_self _ _))))))))))
  rw [if_neg h10]
  rw [t11]
  exact List.mem_cons_of_mem _ (List.mem_cons_of_mem _ (List.mem_cons_of_mem _
      (List.mem_cons_of_mem _ (List.mem_cons_of_mem _ (List.mem_cons_of_mem _
      (List.mem_cons_of_mem _ (List.mem_cons_of_mem _ (List.mem_cons_of_mem _
      (List.mem_cons_of_mem _ (List.mem_cons_of_mem _ (List.mem_cons_self _ _)))))))))))

/-- C14: for every integer status, the message produced by `sep_get_errmsg` is at
most 60 characters long, so it fits, with its terminator, in the 61 bytes the
copy assumes. -/
theorem errmsg_length_le (K : Consts) (status : ℤ) :
    (sep_get_errmsg K status).length ≤ 60 := by
  have hall : ∀ m ∈ errmsg_texts, m.length ≤ 60 := by decide
  exact hall _ (errmsg_mem_texts K status)

/-! ## Round trip and agreement of the converters -/

/-- What `convert_array_flt` computes. -/
lemma convert_array_flt_spec (ptr : ℕ → ℚ) (n : ℤ) (target : ℕ → ℚ) :
    convert_array_flt ptr n target
      = ⟨ptr, fun j => if (j : ℤ) < n then ptr j else target j⟩ := by
  unfold convert_array_flt
  exact for_loop_spec _ (fun s _ => s) (fun _ _ => rfl) ptr target n

/-- What `convert_array_dbl` computes. -/
lemma convert_array_dbl_spec (ptr : ℕ → ℚ) (n : ℤ) (target : ℕ → ℚ) :
    convert_array_dbl ptr n target
      = ⟨ptr, fun j => if (j : ℤ) < n then to_PIXTYPE (ptr j) else target j⟩ := by
  unfold convert_array_dbl
  exact for_loop_spec _ (fun s _ => to_PIXTYPE s) (fun _ _ => rfl) ptr target n

/-- What `convert_array_int` computes. -/
lemma convert_array_int_spec (ptr : ℕ → ℤ) (n : ℤ) (target : ℕ → ℚ) :
    convert_array_int ptr n target
      = ⟨ptr, fun j => if (j : ℤ) < n then to_PIXTYPE (ptr j : ℚ) else target j⟩ := by
  unfold convert_array_int
  exact for_loop_spec _ (fun (s : ℤ) _ => to_PIXTYPE (s : ℚ)) (fun _ _ => rfl) ptr target n

/-- What `convert_array_byt` computes. -/
lemma convert_array_byt_spec (ptr : ℕ → ℕ) (n : ℤ) (target : ℕ → ℚ) :
    convert_array_byt ptr n target
      = ⟨ptr, fun j => if (j : ℤ) < n then to_PIXTYPE (ptr j : ℚ) else target j⟩ := by
  unfold convert_array_byt
  exact for_loop_spec _ (fun (s : ℕ) _ => to_PIXTYPE (s : ℚ)) (fun _ _ => rfl) ptr target n

/-- Adding one-half to an integer and truncating toward zero gives the integer
when it is not negative and the next integer when it is negative. -/
lemma truncate_int_add_half (x : ℤ) :
    truncate ((x : ℚ) + 1 / 2) = if 0 ≤ x then x else x + 1 := by
  by_cases h : 0 ≤ x
  · rw [if_pos h]
    have hq : (0 : ℚ) ≤ (x : ℚ) := by exact_mod_cast h
    rw [truncate_of_nonneg _ (by linarith), Int.floor_eq_iff]
    constructor <;> linarith
  · rw [if_neg h]
    have hq : (x : ℚ) + 1 ≤ 0 := by
      have : x + 1 ≤ 0 := by omega
      exact_mod_cast this
    rw [truncate_of_neg _ (by linarith), Int.ceil_eq_iff]
    push_cast
    constructor <;> linarith

/-- C19: round trip through the INT representation. For every `int` x of
magnitude at most 2^24, converting [x] with `convert_array_int` and writing the
result back with `write_array_int` returns x when 0 ≤ x ≤ 2^24 and returns x + 1
(not x) when -2^24 ≤ x < 0. -/
theorem int_round_trip (x : ℤ) (hx : -2 ^ 24 ≤ x ∧ x ≤ 2 ^ 24) (tf : ℕ → ℚ) (ti : ℕ → ℤ) :
    ∃ m, write_array_int (convert_array_int (buf_of_list [x] 0) 1 tf).target 1 ti = some m ∧
      (0 ≤ x → m.target 0 = x) ∧
      (x < 0 → m.target 0 = x + 1 ∧ m.target 0 ≠ x) := by
  have hfl : isFloat (x : ℚ) := isFloat_intCast x (abs_le.mpr hx)
  have hc : ∀ i : ℕ, (i : ℤ) < 1 →
      (convert_array_int (buf_of_list [x] 0) 1 tf).target i = (x : ℚ) := by
    intro i hi
    have hi0 : i = 0 := by omega
    subst hi0
    rw [convert_array_int_spec]
    simp only [Nat.cast_zero, zero_lt_one, if_true]
    exact hfl.1
  have hr : isInt (truncate ((x : ℚ) + 1 / 2)) := by
    rw [truncate_int_add_half]
    unfold isInt INT_MIN INT_MAX
    obtain ⟨h1, h2⟩ := hx
    norm_num at h1 h2
    split_ifs <;> constructor <;> omega
  refine ⟨_, write_array_int_spec _ 1 ti (fun i hi => ?_), ?_, ?_⟩
  · rw [hc i hi]
    exact ⟨hfl, hr⟩
  · intro h0
    simp only [Nat.cast_zero, zero_lt_one, if_true]
    rw [hc 0 (by norm_num), truncate_int_add_half, if_pos h0]
  · intro h0
    simp only [Nat.cast_zero, zero_lt_one, if_true]
    rw [hc 0 (by norm_num), truncate_int_add_half, if_neg (by omega)]
    exact ⟨rfl, by omega⟩

/-- Witness of C19: the value -1 comes back as 0. -/
theorem int_round_trip_witness :
    (-2 ^ 24 ≤ (-1 : ℤ) ∧ (-1 : ℤ) ≤ 2 ^ 24) ∧
    ∃ m, write_array_int (convert_array_int (buf_of_list [-1] 0) 1 (fun _ => 9)).target 1
        (fun _ => 7) = some m ∧
      (0 ≤ (-1 : ℤ) → m.target 0 = -1) ∧
      ((-1 : ℤ) < 0 → m.target 0 = -1 + 1 ∧ m.target 0 ≠ -1) :=
  ⟨by decide, int_round_trip (-1) (by decide) (fun _ => 9) (fun _ => 7)⟩

/-- C20: for every tag in BYTE, INT, FLOAT, DOUBLE (the tag of the element type of
the buffer), every buffer of that type and every count n, the array converter
returned by `get_array_converter` agrees element-wise with the scalar converter
returned by `get_converter` for the same tag: target[i] equals the scalar
converter applied to raw element i for every i < n (the other elements of target
are unchanged), and both resolvers report the same element size. -/
theorem array_converter_agrees_with_scalar (K : Consts) (hK : K.tagsDistinct) (buf : RawBuf)
    (n : ℤ) (target : ℕ → ℚ) (s : SepState) :
    ∃ f g, (get_converter K (buf.dtype K) s).1.f = some f ∧
      (get_array_converter K (buf.dtype K) s).1.f = some g ∧
      (get_converter K (buf.dtype K) s).1.size
        = (get_array_converter K (buf.dtype K) s).1.size ∧
      ∃ t, g.call buf n target = some t ∧
        (∀ i : ℕ, (i : ℤ) < n → f.call (buf.elem i) = some (t i)) ∧
        (∀ i : ℕ, ¬ (i : ℤ) < n → t i = target i) := by
  simp only [Consts.tagsDistinct, List.nodup_cons, List.mem_cons, List.mem_singleton,
    List.not_mem_nil, not_or, List.nodup_nil, and_true, not_false_eq_true] at hK
  obtain ⟨⟨hbi, hbf, hbd⟩, ⟨hif, hid⟩, hfd⟩ := hK
  cases buf with
  | byt b =>
    refine ⟨converter.convert_byt, array_converter.convert_array_byt, ?_, ?_, ?_, _, rfl, ?_, ?_⟩
    · simp [get_converter, RawBuf.dtype, hbi, hbf, hbd]
    · simp [get_array_converter, RawBuf.dtype, hbf]
    · simp [get_converter, get_array_converter, RawBuf.dtype, hbi, hbf, hbd]
    · intro i hi
      rw [convert_array_byt_spec]
      simp only [hi, if_true]
      rfl
    · intro i hi
      rw [convert_array_byt_spec]
      simp only [hi, if_false]
  | int b =>
    refine ⟨converter.convert_int, array_converter.convert_array_int, ?_, ?_, ?_, _, rfl, ?_, ?_⟩
    · simp [get_converter, RawBuf.dtype, hif]
    · simp [get_array_converter, RawBuf.dtype, hif, Ne.symm hbi]
    · simp [get_converter, get_array_converter, RawBuf.dtype, hif, Ne.symm hbi]
    · intro i hi
      rw [convert_array_int_spec]
      simp only [hi, if_true]
      rfl
    · intro i hi
      rw [convert_array_int_spec]
      simp only [hi, if_false]
  | flt b =>
    refine ⟨converter.convert_flt, array_converter.convert_array_flt, ?_, ?_, ?_, _, rfl, ?_, ?_⟩
    · simp [get_converter, RawBuf.dtype]
    · simp [get_array_converter, RawBuf.dtype]
    · simp [get_converter, get_array_converter, RawBuf.dtype]
    · intro i hi
      rw [convert_array_flt_spec]
      simp only [hi, if_true]
      rfl
    · intro i hi
      rw [convert_array_flt_spec]
      simp only [hi, if_false]
  | dbl b =>
    refine ⟨converter.convert_dbl, array_converter.convert_array_dbl, ?_, ?_, ?_, _, rfl, ?_, ?_⟩
    · simp [get_converter, RawBuf.dtype, Ne.symm hfd, Ne.symm hid]
    · simp [get_array_converter, RawBuf.dtype, Ne.symm hfd, Ne.symm hid, Ne.symm hbd]
    · simp [get_converter, get_array_converter, RawBuf.dtype, Ne.symm hfd, Ne.symm hid,
        Ne.symm hbd]
    · intro i hi
      rw [convert_array_dbl_spec]
      simp only [hi, if_true]
      rfl
    · intro i hi
      rw [convert_array_dbl_spec]
      simp only [hi, if_false]

/-- Witness of C20: an INT buffer with the constants of the SEP headers. -/
theorem array_converter_agrees_with_scalar_witness :
    sepConsts.tagsDistinct ∧
    ∃ f g, (get_converter sepConsts 31 ⟨""⟩).1.f = some f ∧
      (get_array_converter sepConsts 31 ⟨""⟩).1.f = some g ∧
      (get_converter sepConsts 31 ⟨""⟩).1.size
        = (get_array_converter sepConsts 31 ⟨""⟩).1.size ∧
      ∃ t, g.call (RawBuf.int (buf_of_list [3, -4] 0)) 2 (fun _ => 9) = some t ∧
        (∀ i : ℕ, (i : ℤ) < 2 →
          f.call ((RawBuf.int (buf_of_list [3, -4] 0)).elem i) = some (t i)) ∧
        (∀ i : ℕ, ¬ (i : ℤ) < 2 → t i = 9) :=
  ⟨by decide, array_converter_agrees_with_scalar sepConsts (by decide)
    (RawBuf.int (buf_of_list [3, -4] 0)) 2 (fun _ => 9) ⟨""⟩⟩

/-! ## Properties of the median -/

/-- The comparison `fqcmp` orders by value. -/
lemma fqcmp_le_iff (a b : ℚ) : fqcmp a b ≤ 0 ↔ to_double a ≤ to_double b := by
  unfold fqcmp
  simp only []
  split_ifs with h1 h2
  · constructor
    · intro h; omega
    · intro h; linarith
  · constructor
    · intro _; exact h2.le
    · intro _; omega
  · constructor
    · intro _; exact not_lt.mp h1
    · intro _; omega

/-- The order of `fqcmp` is total. -/
lemma fqcmp_total : IsTotal ℚ (fun a b => fqcmp a b ≤ 0) :=
  ⟨fun a b => by simp only [fqcmp_le_iff]; exact le_total _ _⟩

/-- The order of `fqcmp` is transitive. -/
lemma fqcmp_trans : IsTrans ℚ (fun a b => fqcmp a b ≤ 0) :=
  ⟨fun a b c => by simp only [fqcmp_le_iff]; exact le_trans⟩

/-- The list `qsort` leaves in the first `n` positions: sorted by `fqcmp`, a
permutation of the first `n` elements. -/
lemma insertionSort_fqcmp (L : List ℚ) :
    (List.insertionSort (fun a b => fqcmp a b ≤ 0) L).Sorted (fun a b => fqcmp a b ≤ 0) ∧
    (List.insertionSort (fun a b => fqcmp a b ≤ 0) L).Perm L :=
  haveI := fqcmp_total
  haveI := fqcmp_trans
  ⟨List.sorted_insertionSort _ L, List.perm_insertionSort _ L⟩

/-- On `float` values, sorted by `fqcmp` is ascending. -/
lemma sorted_le_of_fqcmp (L : List ℚ) (hf : ∀ x ∈ L, isFloat x)
    (h : L.Sorted (fun a b => fqcmp a b ≤ 0)) : L.Sorted (fun a b => a ≤ b) := by
  refine List.Pairwise.imp_of_mem ?_ h
  intro a b ha hb hab
  rw [fqcmp_le_iff, to_double_of_isFloat a (hf a ha), to_double_of_isFloat b (hf b hb)] at hab
  exact hab

/-- The ascending list of the first `n` elements is unique. -/
lemma sorted_unique (L S T : List ℚ) (hS : S.Sorted (fun a b => a ≤ b)) (hSp : S.Perm L)
    (hT : T.Sorted (fun a b => a ≤ b)) (hTp : T.Perm L) : S = T :=
  List.eq_of_perm_of_sorted (hSp.trans hTp.symm) hS hT

/-- The first `n` elements are `float`s when the buffer holds `float`s below `n`. -/
lemma first_elems_isFloat (ra : ℕ → ℚ) (n : ℤ) (hf : ∀ i : ℕ, (i : ℤ) < n → isFloat (ra i)) :
    ∀ x ∈ first_elems ra n, isFloat x := by
  intro x hx
  unfold first_elems at hx
  rw [List.mem_map] at hx
  obtain ⟨i, hi, rfl⟩ := hx
  exact hf i (Int.lt_toNat.mp (List.mem_range.mp hi))

lemma first_elems_length (ra : ℕ → ℚ) (n : ℤ) : (first_elems ra n).length = n.toNat := by
  unfold first_elems
  rw [List.length_map, List.length_range]

/-- The first `n` elements of a buffer that holds a list of length `n` in its
first `n` positions are that list. -/
lemma first_elems_of_getD (L : List ℚ) (ra : ℕ → ℚ) (n : ℤ) (hL : L.length = n.toNat) :
    first_elems (fun j => if (j : ℤ) < n then L.getD j 0 else ra j) n = L := by
  apply List.ext_getElem
  · rw [first_elems_length, hL]
  · intro i h1 h2
    unfold first_elems
    rw [List.getElem_map, List.getElem_range]
    have hi : (i : ℤ) < n := Int.lt_toNat.mp (by rw [← hL]; exact h2)
    rw [if_pos hi, List.getD_eq_getElem _ _ h2]

/-- The first `n` elements of `qsorted` are the sorted list. -/
lemma first_elems_qsorted (ra : ℕ → ℚ) (n : ℤ) :
    first_elems (qsorted ra n) n
      = List.insertionSort (fun a b => fqcmp a b ≤ 0) (first_elems ra n) := by
  unfold qsorted
  apply first_elems_of_getD
  rw [(List.perm_insertionSort _ _).length_eq, first_elems_length]

/-- An element of a buffer below `n` is the element of `first_elems` at its index. -/
lemma first_elems_getD (ra : ℕ → ℚ) (n : ℤ) (i : ℕ) (hi : (i : ℤ) < n) :
    (first_elems ra n).getD i 0 = ra i := by
  have h : i < (first_elems ra n).length := by
    rw [first_elems_length]; exact Int.lt_toNat.mpr hi
  rw [List.getD_eq_getElem _ _ h]
  unfold first_elems
  rw [List.getElem_map, List.getElem_range]

/-- What `qsort` with `fqcmp` leaves for a count that is not negative. -/
lemma qsort_fqcmp (ra : ℕ → ℚ) (n : ℤ) (hn : 0 ≤ n) :
    qsort ra n fqcmp = some (qsorted ra n) := by
  unfold qsort
  rw [if_neg (by omega)]
  rfl

/-- The value and the array of `fqmedian` for a count that is not negative. -/
lemma fqmedian_unfold (ra : ℕ → ℚ) (n : ℤ) (hn : 0 ≤ n) :
    fqmedian ra n = some
      (if n < 2 then FVal.fin (qsorted ra n 0)
        else if n % 2 ≠ 0 then FVal.fin (qsorted ra n (n / 2).toNat)
        else double_to_float (double_div_two (float_to_double (float_add
          (qsorted ra n (n / 2 - 1).toNat) (qsorted ra n (n / 2).toNat)))),
        qsorted ra n) := by
  unfold fqmedian
  rw [qsort_fqcmp ra n hn]
  simp only [Option.bind_eq_bind, Option.some_bind]
  split_ifs <;> rfl

/-- The array `fqmedian` leaves: ascending in its first `n` positions, a
permutation of the first `n` elements, unchanged from position `n` on. -/
lemma qsorted_spec (ra : ℕ → ℚ) (n : ℤ)
    (hf : ∀ i : ℕ, (i : ℤ) < n → isFloat (ra i)) :
    (first_elems (qsorted ra n) n).Sorted (fun a b => a ≤ b) ∧
    (first_elems (qsorted ra n) n).Perm (first_elems ra n) ∧
    ∀ j : ℕ, ¬ (j : ℤ) < n → qsorted ra n j = ra j := by
  obtain ⟨hs, hp⟩ := insertionSort_fqcmp (first_elems ra n)
  rw [first_elems_qsorted]
  refine ⟨sorted_le_of_fqcmp _ (fun x hx => ?_) hs, hp, fun j hj => ?_⟩
  · exact first_elems_isFloat ra n hf x (hp.mem_iff.mp hx)
  · unfold qsorted
    rw [if_neg hj]

/-- The elements of the sorted array, through any ascending list of the first
`n` elements. -/
lemma qsorted_eq_getD (ra : ℕ → ℚ) (n : ℤ)
    (hf : ∀ i : ℕ, (i : ℤ) < n → isFloat (ra i)) (S : List ℚ)
    (hS : S.Sorted (fun a b => a ≤ b)) (hP : S.Perm (first_elems ra n)) (i : ℕ)
    (hi : (i : ℤ) < n) : qsorted ra n i = S.getD i 0 := by
  obtain ⟨hs, hp, _⟩ := qsorted_spec ra n hf
  rw [sorted_unique (first_elems ra n) S _ hS hP hs hp]
  exact (first_elems_getD _ n i hi).symm

/-- C18: for n < 2 (n = 1, or n = 0) `fqmedian` returns the first element of the
array and leaves the array exactly as it was. -/
theorem fqmedian_small (ra : ℕ → ℚ) (n : ℤ) (hn : 0 ≤ n) (h2 : n < 2) :
    fqmedian ra n = some (FVal.fin (ra 0), ra) := by
  have hsp : qsorted ra n = ra := by
    funext j
    unfold qsorted
    by_cases hj : (j : ℤ) < n
    · have hj0 : j = 0 := by omega
      have hn1 : n = 1 := by omega
      subst hj0 hn1
      rw [if_pos hj]
      rfl
    · rw [if_neg hj]
  rw [fqmedian_unfold ra n hn, if_pos h2, hsp]

/-- Witness of C18: one element, and no element of a buffer that is not empty. -/
theorem fqmedian_small_witness :
    ((0 : ℤ) ≤ 1 ∧ (1 : ℤ) < 2) ∧
    fqmedian (buf_of_list [5, 4] 9) 1 = some (FVal.fin 5, buf_of_list [5, 4] 9) ∧
    fqmedian (buf_of_list [5, 4] 9) 0 = some (FVal.fin 5, buf_of_list [5, 4] 9) :=
  ⟨by decide, fqmedian_small (buf_of_list [5, 4] 9) 1 (by decide) (by decide),
    fqmedian_small (buf_of_list [5, 4] 9) 0 (by decide) (by decide)⟩

/-- Small integers are `float`s. -/
lemma isFloat_small_nat (k : ℕ) (hk : k ≤ 16) : isFloat (k : ℚ) := by
  have h := isFloat_intCast (k : ℤ) (by rw [abs_of_nonneg (by positivity)]; norm_num; omega)
  simpa using h

/-- The three arrays of the median examples hold `float`s. -/
lemma median_examples_isFloat :
    (∀ i : ℕ, (i : ℤ) < 3 → isFloat (buf_of_list [3, 1, 2] 0 i)) ∧
    (∀ i : ℕ, (i : ℤ) < 4 → isFloat (buf_of_list [4, 1, 3, 2] 0 i)) ∧
    (∀ i : ℕ, (i : ℤ) < 1 → isFloat (buf_of_list [5] 0 i)) := by
  have f1 : isFloat (1 : ℚ) := by simpa using isFloat_small_nat 1 (by norm_num)
  have f2 : isFloat (2 : ℚ) := by simpa using isFloat_small_nat 2 (by norm_num)
  have f3 : isFloat (3 : ℚ) := by simpa using isFloat_small_nat 3 (by norm_num)
  have f4 : isFloat (4 : ℚ) := by simpa using isFloat_small_nat 4 (by norm_num)
  have f5 : isFloat (5 : ℚ) := by simpa using isFloat_small_nat 5 (by norm_num)
  refine ⟨fun i hi => ?_, fun i hi => ?_, fun i hi => ?_⟩
  · have hi' : i < 3 := by omega
    interval_cases i
    · exact f3
    · exact f1
    · exact f2
  · have hi' : i < 4 := by omega
    interval_cases i
    · exact f4
    · exact f1
    · exact f3
    · exact f2
  · have hi' : i < 1 := by omega
    interval_cases i
    exact f5

/-- C16: for every two arrays of n ≥ 1 finite `float` values that are
permutations of each other (same multiset, same length n), `fqmedian` returns the
same result on both. -/
theorem fqmedian_perm (ra1 ra2 : ℕ → ℚ) (n : ℤ) (hn : 1 ≤ n)
    (hf : ∀ i : ℕ, (i : ℤ) < n → isFloat (ra1 i))
    (hp : (first_elems ra1 n).Perm (first_elems ra2 n)) :
    ∃ v r1 r2, fqmedian ra1 n = some (v, r1) ∧ fqmedian ra2 n = some (v, r2) := by
  have hf2 : ∀ i : ℕ, (i : ℤ) < n → isFloat (ra2 i) := by
    intro i hi
    have hmem : ra2 i ∈ first_elems ra2 n := by
      unfold first_elems
      exact List.mem_map.mpr ⟨i, List.mem_range.mpr (Int.lt_toNat.mpr hi), rfl⟩
    exact first_elems_isFloat ra1 n hf _ (hp.mem_iff.mpr hmem)
  obtain ⟨hs1, hp1, _⟩ := qsorted_spec ra1 n hf
  have hsame : ∀ i : ℕ, (i : ℤ) < n → qsorted ra2 n i = qsorted ra1 n i := by
    intro i hi
    rw [qsorted_eq_getD ra2 n hf2 _ hs1 (hp1.trans hp) i hi]
    exact first_elems_getD _ n i hi
  refine ⟨_, _, qsorted ra2 n, fqmedian_unfold ra1 n (by omega), ?_⟩
  rw [fqmedian_unfold ra2 n (by omega)]
  have h0 : ((0 : ℕ) : ℤ) < n := by norm_num; omega
  by_cases h2 : n < 2
  · rw [if_pos h2, if_pos h2, hsame 0 h0]
  · have ha : ((n / 2 - 1).toNat : ℤ) < n := by omega
    have hb : ((n / 2).toNat : ℤ) < n := by omega
    rw [if_neg h2, if_neg h2, hsame _ ha, hsame _ hb]

/-- Witness of C16: the arrays [3, 1, 2] and [1, 2, 3]. -/
theorem fqmedian_perm_witness :
    (1 : ℤ) ≤ 3 ∧
    (∀ i : ℕ, (i : ℤ) < 3 → isFloat (buf_of_list [3, 1, 2] 0 i)) ∧
    (first_elems (buf_of_list [3, 1, 2] 0) 3).Perm (first_elems (buf_of_list [1, 2, 3] 0) 3) ∧
    ∃ v r1 r2, fqmedian (buf_of_list [3, 1, 2] 0) 3 = some (v, r1) ∧
      fqmedian (buf_of_list [1, 2, 3] 0) 3 = some (v, r2) :=
  ⟨by decide, median_examples_isFloat.1, by decide,
    fqmedian_perm (buf_of_list [3, 1, 2] 0) (buf_of_list [1, 2, 3] 0) 3 (by decide)
      median_examples_isFloat.1 (by decide)⟩

/-- C17: for every array of n finite `float` values, after `fqmedian` returns the
first n elements of the caller's array are in ascending (non-decreasing) order
and are a permutation of the original first n elements (same multiset); the
elements at index ≥ n are unchanged. -/
theorem fqmedian_sorts (ra : ℕ → ℚ) (n : ℤ) (hn : 0 ≤ n)
    (hf : ∀ i : ℕ, (i : ℤ) < n → isFloat (ra i)) :
    ∃ v ra', fqmedian ra n = some (v, ra') ∧
      (first_elems ra' n).Sorted (fun a b => a ≤ b) ∧
      (∀ i j : ℕ, i ≤ j → (j : ℤ) < n → ra' i ≤ ra' j) ∧
      (first_elems ra' n).Perm (first_elems ra n) ∧
      ∀ j : ℕ, ¬ (j : ℤ) < n → ra' j = ra j := by
  obtain ⟨hs, hp, hfr⟩ := qsorted_spec ra n hf
  refine ⟨_, _, fqmedian_unfold ra n hn, hs, ?_, hp, hfr⟩
  intro i j hij hj
  have hi : (i : ℤ) < n := by omega
  have hlen := first_elems_length (qsorted ra n) n
  have hi' : i < (first_elems (qsorted ra n) n).length := by
    rw [hlen]; exact Int.lt_toNat.mpr hi
  have hj' : j < (first_elems (qsorted ra n) n).length := by
    rw [hlen]; exact Int.lt_toNat.mpr hj
  have h := List.Sorted.rel_get_of_le hs (a := ⟨i, hi'⟩) (b := ⟨j, hj'⟩) hij
  rw [← first_elems_getD (qsorted ra n) n i hi,
    ← first_elems_getD (qsorted ra n) n j hj,
    List.getD_eq_getElem _ _ hi', List.getD_eq_getElem _ _ hj']
  exact h

/-- Witness of C17: the array [4, 1, 3, 2]. -/
theorem fqmedian_sorts_witness :
    (0 : ℤ) ≤ 4 ∧
    (∀ i : ℕ, (i : ℤ) < 4 → isFloat (buf_of_list [4, 1, 3, 2] 0 i)) ∧
    ∃ v ra', fqmedian (buf_of_list [4, 1, 3, 2] 0) 4 = some (v, ra') ∧
      (first_elems ra' 4).Sorted (fun a b => a ≤ b) ∧
      (∀ i j : ℕ, i ≤ j → (j : ℤ) < 4 → ra' i ≤ ra' j) ∧
      (first_elems ra' 4).Perm (first_elems (buf_of_list [4, 1, 3, 2] 0) 4) ∧
      ∀ j : ℕ, ¬ (j : ℤ) < 4 → ra' j = buf_of_list [4, 1, 3, 2] 0 j :=
  ⟨by decide, median_examples_isFloat.2.1,
    fqmedian_sorts (buf_of_list [4, 1, 3, 2] 0) 4 (by decide) median_examples_isFloat.2.1⟩

end Sep
